import Mathlib

/-!
# Verification of the Bedrock-agents trace-correlation engine

Shallow embedding of `src/observability/__init__.py` and
`src/observability/attributes.py`: the span registry (the module-level
`active_spans` dict), the trace correlator (`process_trace`,
`routing_trace`, `orchestration_trace`), the attribute mappers
(`handle_model_invoke_input`, `handle_model_invoke_output`,
`extract_agent_id_from_arn`) and the stream consumer (`observe_response`).

Python dict payloads are embedded as Lean structures whose fields are the
keys the source reads (`Option` marks a key the source reads with `.get`
or an `in` test).  JSON sub-documents embedded as text (model prompts and
raw model responses) are parsed with `jparse`, an executable model of
`json.loads` restricted to the shapes the payloads use: objects, arrays,
strings with the common escapes, integer numbers, booleans and null
(floats, `\u` escapes and unquoted control characters are treated as
unparseable).  OpenTelemetry span semantics are embedded in `TraceState`:
`start_span` appends a fresh span, `set_attribute` appends to an open
span's attribute list (the OTel SDK discards writes to an ended span),
`end` marks it ended.
-/

namespace BedrockObs

/-- A JSON value, as produced by `json.loads`. -/
inductive JValue where
  | null : JValue
  | bool : Bool → JValue
  | num : Int → JValue
  | str : String → JValue
  | arr : List JValue → JValue
  | obj : List (String × JValue) → JValue

/-- `kvs.get(k)` for a parsed JSON object: `json.loads` keeps the last of
duplicate keys, so the last matching pair wins. -/
def dictGet? (kvs : List (String × JValue)) (k : String) : Option JValue :=
  (kvs.reverse.find? (fun e => e.1 == k)).map (fun e => e.2)

/-- `kvs.get(k, d)` for a parsed JSON object. -/
def dictGetD (kvs : List (String × JValue)) (k : String) (d : JValue) : JValue :=
  (dictGet? kvs k).getD d

/-- Python truthiness of a JSON value (`if item["text"]:`). -/
def truthy : JValue → Bool
  | .null => false
  | .bool b => b
  | .num n => n != 0
  | .str s => !s.isEmpty
  | .arr xs => !xs.isEmpty
  | .obj kvs => !kvs.isEmpty

/-- Substring test on character lists (Python `needle in haystack` for
strings). -/
def containsSub (needle : List Char) : List Char → Bool
  | [] => needle.isPrefixOf []
  | c :: t => needle.isPrefixOf (c :: t) || containsSub needle t

/-- Python `k in j` on a parsed JSON value: key membership for a dict,
element membership for a list (a string equals only a string), substring
test for a string; `none` models the `TypeError` raised on a number,
boolean or null. -/
def pyInJ (k : String) : JValue → Option Bool
  | .obj kvs => some (kvs.any (fun e => e.1 == k))
  | .arr xs => some (xs.any (fun v => match v with | .str s => s == k | _ => false))
  | .str s => some (containsSub k.data s.data)
  | _ => none

/-- Python `j[k]` on a parsed JSON value: `none` models the exception
raised when `j` is not a dict holding the key. -/
def pySubscript (j : JValue) (k : String) : Option JValue :=
  match j with
  | .obj kvs => dictGet? kvs k
  | _ => none

/-! ## An executable model of `json.loads` -/

/-- JSON whitespace. -/
def wsChar (c : Char) : Bool :=
  (' ' == c) || ('\t' == c) || ('\n' == c) || ('\r' == c)

/-- Drop leading JSON whitespace. -/
def skipWs : List Char → List Char
  | [] => []
  | c :: cs => if wsChar c then skipWs cs else c :: cs

/-- The opening brace character. -/
def obrace : Char := Char.ofNat 123

/-- The closing brace character. -/
def cbrace : Char := Char.ofNat 125

/-- Decode one escape character of a JSON string (`\uXXXX` is not
supported and makes the parse fail).  The characters that escape to
themselves share one branch. -/
def escChar (e : Char) : Option Char :=
  if ('"' == e) || ('\\' == e) || ('/' == e) then some e
  else if 'n' == e then some '\n'
  else if 't' == e then some '\t'
  else if 'r' == e then some '\r'
  else if 'b' == e then some (Char.ofNat 8)
  else if 'f' == e then some (Char.ofNat 12)
  else none

/-- Parse the body of a JSON string after the opening quote; returns the
decoded characters and the input after the closing quote. -/
def parseStrChars : Nat → List Char → Option (List Char × List Char)
  | 0, _ => none
  | _ + 1, [] => none
  | fuel + 1, c :: cs =>
    if c == '"' then some ([], cs)
    else if c == '\\' then
      match cs with
      | [] => none
      | e :: cs2 =>
        match escChar e with
        | none => none
        | some ec =>
          match parseStrChars fuel cs2 with
          | none => none
          | some (s, r) => some (ec :: s, r)
    else
      match parseStrChars fuel cs with
      | none => none
      | some (s, r) => some (c :: s, r)

/-- Split the longest leading run of decimal digits. -/
def takeDigits : List Char → List Char × List Char
  | [] => ([], [])
  | c :: cs =>
    if c.isDigit then
      let (d, r) := takeDigits cs
      (c :: d, r)
    else ([], c :: cs)

/-- Numeric value of a digit run. -/
def digitsVal (ds : List Char) : Nat :=
  ds.foldl (fun a c => a * 10 + (c.toNat - 48)) 0

/-- A digit run that JSON accepts as an integer: non-empty, no leading
zero unless it is exactly "0". -/
def digitsOk (ds : List Char) : Bool :=
  match ds with
  | [] => false
  | ['0'] => true
  | c :: _ => c != '0'

mutual

/-- Parse one JSON value (integer numbers only; a fractional part or
exponent makes the surrounding parse fail, modelling the restriction of
this development to integer-valued payloads). -/
def parseVal : Nat → List Char → Option (JValue × List Char)
  | 0, _ => none
  | fuel + 1, cs =>
    match skipWs cs with
    | [] => none
    | c :: rest =>
      if c == '"' then
        match parseStrChars fuel rest with
        | none => none
        | some (s, r) => some (.str ⟨s⟩, r)
      else if c == obrace then
        match skipWs rest with
        | c2 :: r2 =>
          if c2 == cbrace then some (.obj [], r2)
          else
            match parseObjItems fuel (c2 :: r2) with
            | none => none
            | some (kvs, r) => some (.obj kvs, r)
        | [] => none
      else if c == '[' then
        match skipWs rest with
        | c2 :: r2 =>
          if c2 == ']' then some (.arr [], r2)
          else
            match parseArrItems fuel (c2 :: r2) with
            | none => none
            | some (xs, r) => some (.arr xs, r)
        | [] => none
      else if c == 't' then
        match rest with
        | 'r' :: 'u' :: 'e' :: r => some (.bool true, r)
        | _ => none
      else if c == 'f' then
        match rest with
        | 'a' :: 'l' :: 's' :: 'e' :: r => some (.bool false, r)
        | _ => none
      else if c == 'n' then
        match rest with
        | 'u' :: 'l' :: 'l' :: r => some (.null, r)
        | _ => none
      else if c == '-' then
        let (ds, r) := takeDigits rest
        if digitsOk ds then some (.num (-(digitsVal ds : Int)), r) else none
      else if c.isDigit then
        let (ds, r) := takeDigits (c :: rest)
        if digitsOk ds then some (.num (digitsVal ds : Int), r) else none
      else none

/-- Parse the comma-separated items of a non-empty JSON array, up to and
including the closing bracket. -/
def parseArrItems : Nat → List Char → Option (List JValue × List Char)
  | 0, _ => none
  | fuel + 1, cs =>
    match parseVal fuel cs with
    | none => none
    | some (v, r) =>
      match skipWs r with
      | ',' :: r2 =>
        match parseArrItems fuel r2 with
        | none => none
        | some (xs, r3) => some (v :: xs, r3)
      | ']' :: r2 => some ([v], r2)
      | _ => none

/-- Parse the comma-separated members of a non-empty JSON object, up to
and including the closing brace. -/
def parseObjItems : Nat → List Char → Option (List (String × JValue) × List Char)
  | 0, _ => none
  | fuel + 1, cs =>
    match skipWs cs with
    | '"' :: r =>
      match parseStrChars fuel r with
      | none => none
      | some (k, r2) =>
        match skipWs r2 with
        | ':' :: r3 =>
          match parseVal fuel r3 with
          | none => none
          | some (v, r4) =>
            match skipWs r4 with
            | ',' :: r5 =>
              match parseObjItems fuel r5 with
              | none => none
              | some (kvs, r6) => some ((⟨k⟩, v) :: kvs, r6)
            | c :: r5 =>
              if c == cbrace then some ([(⟨k⟩, v)], r5) else none
            | [] => none
        | _ => none
    | _ => none

end

/-- The model of `json.loads`: parse one value and require only
whitespace after it. -/
def jparse (s : String) : Option JValue :=
  match parseVal (2 * s.data.length + 8) s.data with
  | none => none
  | some (v, r) =>
    match skipWs r with
    | [] => some v
    | _ :: _ => none

/-! ## `src/observability/attributes.py`: the `SpanAttributes` constants -/

namespace SpanAttributes

def SPAN_KIND : String := "langsmith.span.kind"

def OPERATION_NAME : String := "gen_ai.operation.name"

def SYSTEM : String := "gen_ai.system"

def AGENT_ID : String := "gen_ai.agent.id"

def AGENT_NAME : String := "gen_ai.agent.name"

def LC_PROMPT : String := "langchain.prompt.content"

def LC_COMPLETION : String := "langchain.completion.content"

def COMPLETION : String := "gen_ai.completion.content"

def COMPLETION_ROLE : String := "gen_ai.completion.role"

def PROMPT : String := "gen_ai.prompt.content"

def PROMPT_ROLE : String := "gen_ai.prompt.role"

def REQUEST_MODEL : String := "gen_ai.request.model"

def RESPONSE_MODEL : String := "gen_ai.response.model"

def TEMPERATURE : String := "gen_ai.request.temperature"

def TOP_K : String := "gen_ai.request.top_k"

def TOP_P : String := "gen_ai.request.top_p"

def USAGE_PROMPT_TOKENS : String := "gen_ai.usage.prompt_tokens"

def USAGE_COMPLETION_TOKENS : String := "gen_ai.usage.completion_tokens"

def USAGE_TOTAL_TOKENS : String := "gen_ai.usage.total_tokens"

def REASONING : String := "gen_ai.reasoning"

end SpanAttributes

/-! ## The trace-event payloads (the dict keys the source reads) -/

/-- `inferenceConfiguration` of a `modelInvocationInput` payload
(numeric parameters embedded as integers). -/
structure InferenceConfig where
  temperature : Option Int
  topK : Option Int
  topP : Option Int

/-- A `modelInvocationInput` payload. -/
structure ModelInvocationInput where
  foundationModel : Option String
  text : Option String
  traceId : Option String
  inferenceConfiguration : Option InferenceConfig

/-- `metadata.usage` of a `modelInvocationOutput` payload. -/
structure Usage where
  inputTokens : Option Int
  outputTokens : Option Int

/-- `metadata` of a `modelInvocationOutput` payload. -/
structure Metadata where
  usage : Option Usage

/-- `rawResponse` of a `modelInvocationOutput` payload. -/
structure RawResponse where
  content : Option String
  stopReason : Option String

/-- A `modelInvocationOutput` payload. -/
structure ModelInvocationOutput where
  metadata : Option Metadata
  rawResponse : Option RawResponse

/-- `invocationInput.actionGroupInvocationInput` of an orchestration
payload. -/
structure ActionGroupInvocationInput where
  function : Option String
  actionGroupName : Option String

/-- `invocationInput` of an orchestration payload. -/
structure InvocationInput where
  actionGroupInvocationInput : Option ActionGroupInvocationInput

/-- `observation.finalResponse`. -/
structure FinalResponse where
  text : Option String

/-- `observation.actionGroupInvocationOutput` (a tool result). -/
structure ActionGroupInvocationOutput where
  text : Option String

/-- `observation.agentCollaboratorInvocationOutput`. -/
structure AgentCollaboratorInvocationOutput where
  agentCollaboratorName : Option String
  agentCollaboratorAliasArn : Option String

/-- An `observation` payload. -/
structure Observation where
  finalResponse : Option FinalResponse
  actionGroupInvocationOutput : Option ActionGroupInvocationOutput
  agentCollaboratorInvocationOutput : Option AgentCollaboratorInvocationOutput

/-- A `rationale` payload (present in the upstream event vocabulary; the
source never reads it). -/
structure Rationale where
  text : Option String

/-- A `routingClassifierTrace` payload. -/
structure RoutingClassifierTrace where
  traceId : Option String
  modelInvocationInput : Option ModelInvocationInput
  modelInvocationOutput : Option ModelInvocationOutput
  observation : Option Observation

/-- An `orchestrationTrace` payload. -/
structure OrchestrationTrace where
  traceId : Option String
  modelInvocationInput : Option ModelInvocationInput
  modelInvocationOutput : Option ModelInvocationOutput
  rationale : Option Rationale
  invocationInput : Option InvocationInput
  observation : Option Observation

/-- The inner `trace` dict of a streamed trace event. -/
structure TracePayload where
  routingClassifierTrace : Option RoutingClassifierTrace
  orchestrationTrace : Option OrchestrationTrace

/-- A streamed `trace` event (`process_trace`'s argument; `agentId` and
`agentAliasId` are read by direct subscript, `sessionId` with a
default). -/
structure TraceEvent where
  agentId : String
  agentAliasId : String
  sessionId : Option String
  trace : TracePayload

/-- One element of the `completion` event stream: a `chunk` (its decoded
UTF-8 bytes) and/or a `trace` event. -/
structure StreamEvent where
  chunk : Option String
  trace : Option TraceEvent

/-- The response mapping passed to `observe_response`. -/
structure Response where
  completion : Option (List StreamEvent)

/-! ## Attribute mappers -/

/-- Key of the `i`-th expanded prompt role attribute. -/
def promptRoleKey (i : Nat) : String := "gen_ai.prompt." ++ toString i ++ ".role"

/-- Key of the `i`-th expanded prompt content attribute. -/
def promptContentKey (i : Nat) : String := "gen_ai.prompt." ++ toString i ++ ".content"

/-- Key of the `i`-th expanded completion content attribute. -/
def completionContentKey (i : Nat) : String := "gen_ai.completion." ++ toString i ++ ".content"

/-- Key of the `i`-th expanded completion role attribute. -/
def completionRoleKey (i : Nat) : String := "gen_ai.completion." ++ toString i ++ ".role"

/-- The two attributes of the `except` fallback in
`handle_model_invoke_input`. -/
def fallbackPromptAttrs (promptText : String) : List (String × JValue) :=
  [("gen_ai.prompt.0.content", .str promptText), ("gen_ai.prompt.0.role", .str "user")]

/-- The loop over `prompt_json["messages"]`: the attribute pairs emitted
before the loop finishes or raises, and whether it raised (`msg.get` on a
non-dict element raises). -/
def expandMessages (i : Nat) : List JValue → List (String × JValue) × Bool
  | [] => ([], false)
  | .obj kvs :: rest =>
    let role := dictGetD kvs "role" (.str "user")
    let content := dictGetD kvs "content" (.str "")
    let (tail, raised) := expandMessages (i + 1) rest
    ((promptRoleKey i, role) :: (promptContentKey i, content) :: tail, raised)
  | _ :: _ => ([], true)

/-- The `try` block of `handle_model_invoke_input`: the attributes it
emits and whether it raised (triggering the fallback).  `json.loads`
failure raises; `"messages" in prompt_json` raises on a number, boolean
or null; `.get` raises on a non-dict; `enumerate` raises on a number,
boolean or null, iterates keys of a dict and characters of a string (in
both cases the first element, a string, has no `.get` and raises). -/
def promptTryAttrs (promptText : String) : List (String × JValue) × Bool :=
  match jparse promptText with
  | none => ([], true)
  | some j =>
    match pyInJ "messages" j with
    | none => ([], true)
    | some false => ([], false)
    | some true =>
      match j with
      | .obj kvs =>
        match dictGetD kvs "messages" (.arr []) with
        | .arr msgs => expandMessages 0 msgs
        | .str s => ([], !s.isEmpty)
        | .obj kvs2 => ([], !kvs2.isEmpty)
        | _ => ([], true)
      | _ => ([], true)

/-- The attribute batch of `handle_model_invoke_input` (in the order the
source sets them). -/
def handle_model_invoke_input_attrs (d : ModelInvocationInput) : List (String × JValue) :=
  let model_name := d.foundationModel.getD ""
  let prompt_text := d.text.getD ""
  let head := [(SpanAttributes.RESPONSE_MODEL, JValue.str model_name),
               (SpanAttributes.PROMPT, JValue.str prompt_text),
               (SpanAttributes.LC_PROMPT, JValue.str prompt_text),
               (SpanAttributes.SPAN_KIND, JValue.str "LLM"),
               ("gen_ai.request.model", JValue.str model_name)]
  let tryPart := promptTryAttrs prompt_text
  let dynamic := tryPart.1 ++ (if tryPart.2 then fallbackPromptAttrs prompt_text else [])
  let inference_config := d.inferenceConfiguration.getD ⟨none, none, none⟩
  let tail := [(SpanAttributes.TEMPERATURE, JValue.num (inference_config.temperature.getD 0)),
               (SpanAttributes.TOP_K, JValue.num (inference_config.topK.getD 0)),
               (SpanAttributes.TOP_P, JValue.num (inference_config.topP.getD 0))]
  head ++ dynamic ++ tail

/-- `metadata.get("usage", {}).get("inputTokens", 0)`. -/
def tokensIn (d : ModelInvocationOutput) : Int :=
  match d.metadata with
  | some m =>
    match m.usage with
    | some u => u.inputTokens.getD 0
    | none => 0
  | none => 0

/-- `metadata.get("usage", {}).get("outputTokens", 0)`. -/
def tokensOut (d : ModelInvocationOutput) : Int :=
  match d.metadata with
  | some m =>
    match m.usage with
    | some u => u.outputTokens.getD 0
    | none => 0
  | none => 0

/-- The loop over `message_content` in `handle_model_invoke_output`:
items whose `"text"` membership test raises stop the loop; an item with a
truthy `"text"` value emits indexed completion content/role pairs. -/
def expandCompletion (i : Nat) : List JValue → List (String × JValue) × Bool
  | [] => ([], false)
  | item :: rest =>
    match pyInJ "text" item with
    | none => ([], true)
    | some false => expandCompletion (i + 1) rest
    | some true =>
      match item with
      | .obj kvs =>
        let v := dictGetD kvs "text" .null
        if truthy v then
          let (tail, raised) := expandCompletion (i + 1) rest
          ((completionContentKey i, v) :: (completionRoleKey i, JValue.str "assistant") :: tail, raised)
        else expandCompletion (i + 1) rest
      | _ => ([], true)

/-- The `try` block over `rawResponse.content` in
`handle_model_invoke_output`: attributes emitted and whether it raised.
Python behaviours modelled: subscripting a non-dict with a string raises;
iterating a dict yields its keys (a key containing `"text"` then raises
on subscript, any other key is skipped); iterating a string yields
one-character strings, in which `"text"` never occurs, so nothing is
emitted and nothing raises. -/
def rawResponseTryAttrs (content : String) : List (String × JValue) × Bool :=
  match jparse content with
  | none => ([], true)
  | some j =>
    match pyInJ "output" j with
    | none => ([], true)
    | some false => ([], false)
    | some true =>
      match pySubscript j "output" with
      | none => ([], true)
      | some out =>
        match pyInJ "message" out with
        | none => ([], true)
        | some false => ([], false)
        | some true =>
          match pySubscript out "message" with
          | none => ([], true)
          | some msg =>
            match msg with
            | .obj mkvs =>
              match dictGetD mkvs "content" (.arr []) with
              | .arr items => expandCompletion 0 items
              | .str _ => ([], false)
              | .obj kvs2 => ([], kvs2.any (fun e => containsSub "text".data e.1.data))
              | _ => ([], true)
            | _ => ([], true)

/-- The attribute batch of `handle_model_invoke_output` (in the order
the source sets them). -/
def handle_model_invoke_output_attrs (d : ModelInvocationOutput) : List (String × JValue) :=
  let input_tokens := tokensIn d
  let output_tokens := tokensOut d
  let total_tokens := input_tokens + output_tokens
  let usageAttrs := [(SpanAttributes.USAGE_PROMPT_TOKENS, JValue.num input_tokens),
                     (SpanAttributes.USAGE_COMPLETION_TOKENS, JValue.num output_tokens),
                     (SpanAttributes.USAGE_TOTAL_TOKENS, JValue.num total_tokens)]
  let rawAttrs :=
    match d.rawResponse with
    | some rr =>
      match rr.content with
      | some content =>
        let tryPart := rawResponseTryAttrs content
        tryPart.1 ++ (if tryPart.2 then [("gen_ai.raw_response", JValue.str content)] else [])
      | none => []
    | none => []
  let stopAttrs :=
    match d.rawResponse with
    | some rr =>
      match rr.stopReason with
      | some sr => [("gen_ai.stop_reason", JValue.str sr)]
      | none => []
    | none => []
  usageAttrs ++ rawAttrs ++ stopAttrs

/-- Index of the first occurrence of `needle` in `hay` (Python
`str.find`, with `none` for the source's `-1`). -/
def strFind : List Char → List Char → Option Nat
  | hay, needle =>
    if needle.isPrefixOf hay then some 0
    else
      match hay with
      | [] => none
      | _ :: t => (strFind t needle).map (· + 1)

/-- The marker substring `":agent-alias/"`. -/
def aliasMarker : List Char := ":agent-alias/".data

/-- The string manipulation of `extract_agent_id_from_arn`: find the
marker (only a strictly positive index passes the source's `pos > 0`
test), slice from it, find the next `"/"` (again requiring a strictly
positive index), and return everything after it. -/
def extract_agent_id_core (arn : String) : Option String :=
  match strFind arn.data aliasMarker with
  | some pos =>
    if 0 < pos then
      let arn2 := arn.data.drop pos
      match strFind arn2 ['/'] with
      | some pos2 =>
        if 0 < pos2 then some ⟨arn2.drop (pos2 + 1)⟩ else none
      | none => none
    else none
  | none => none

/-- `extract_agent_id_from_arn` of the source: reads
`agentCollaboratorAliasArn` with default `""`. -/
def extract_agent_id_from_arn (d : AgentCollaboratorInvocationOutput) : Option String :=
  extract_agent_id_core (d.agentCollaboratorAliasArn.getD "")

/-! ## Spans, the registry (`active_spans`), and the correlator -/

/-- One observability span: its handle identity `sid`, the registry key
it was created under, its name, its attribute list (in write order) and
whether `end()` has been called. -/
structure Span where
  sid : Nat
  key : String
  name : String
  attrs : List (String × JValue)
  ended : Bool

/-- The correlator's state: the module-level `active_spans` dict (a
key-to-handle mapping in insertion order), the log of every span ever
started, and the next fresh handle. -/
structure TraceState where
  activeSpans : List (String × Nat)
  spans : List Span
  nextSid : Nat

/-- `active_spans[k]` lookup (`k in active_spans` is `isSome` of this). -/
def regLookup : List (String × Nat) → String → Option Nat
  | [], _ => none
  | e :: rest, k => if e.1 = k then some e.2 else regLookup rest k

/-- `del active_spans[k]`. -/
def regDelete : List (String × Nat) → String → List (String × Nat)
  | [], _ => []
  | e :: rest, k => if e.1 = k then regDelete rest k else e :: regDelete rest k

/-- `tracer.start_span(...)` immediately followed by
`active_spans[key] = span`, as at every creation site of the source. -/
def startSpan (st : TraceState) (key name : String) (attrs : List (String × JValue)) : TraceState :=
  { st with
    spans := st.spans ++ [⟨st.nextSid, key, name, attrs, false⟩],
    activeSpans := st.activeSpans ++ [(key, st.nextSid)],
    nextSid := st.nextSid + 1 }

/-- `span.set_attribute(k, v)`: appended to the attribute list while the
span is open; the OTel SDK discards writes to an ended span. -/
def setAttr (st : TraceState) (i : Nat) (k : String) (v : JValue) : TraceState :=
  { st with
    spans := st.spans.map (fun sp =>
      if sp.sid == i && !sp.ended then { sp with attrs := sp.attrs ++ [(k, v)] } else sp) }

/-- A sequence of `set_attribute` calls. -/
def setAttrs (st : TraceState) (i : Nat) : List (String × JValue) → TraceState
  | [] => st
  | (k, v) :: rest => setAttrs (setAttr st i k v) i rest

/-- `span.end()`. -/
def endSpan (st : TraceState) (i : Nat) : TraceState :=
  { st with
    spans := st.spans.map (fun sp => if sp.sid == i then { sp with ended := true } else sp) }

/-- `handle_model_invoke_input(span, data)`. -/
def handle_model_invoke_input (st : TraceState) (i : Nat) (d : ModelInvocationInput) : TraceState :=
  setAttrs st i (handle_model_invoke_input_attrs d)

/-- `handle_model_invoke_output(span, data)`. -/
def handle_model_invoke_output (st : TraceState) (i : Nat) (d : ModelInvocationOutput) : TraceState :=
  setAttrs st i (handle_model_invoke_output_attrs d)

/-- The empty `routingClassifierTrace` default. -/
def emptyRouting : RoutingClassifierTrace := ⟨none, none, none, none⟩

/-- The empty `orchestrationTrace` default. -/
def emptyOrch : OrchestrationTrace := ⟨none, none, none, none, none, none⟩

/-- The correlation key `routing_trace` derives
(`f"{trace_run_id}_routing_{traceId}"`). -/
def routingKey (trace_run_id : String) (t : TraceEvent) : String :=
  trace_run_id ++ "_routing_" ++ ((t.trace.routingClassifierTrace.getD emptyRouting).traceId.getD "")

/-- The correlation key `orchestration_trace` derives
(`f"{trace_run_id}_orchestration_{traceId}"`). -/
def orchKey (trace_run_id : String) (t : TraceEvent) : String :=
  trace_run_id ++ "_orchestration_" ++ ((t.trace.orchestrationTrace.getD emptyOrch).traceId.getD "")

/-- The creation attributes of an `agent_routing` span. -/
def routingCreateAttrs (agent_id span_id : String) : List (String × JValue) :=
  [(SpanAttributes.SPAN_KIND, JValue.str "CHAIN"),
   (SpanAttributes.OPERATION_NAME, JValue.str "route_agent"),
   (SpanAttributes.SYSTEM, JValue.str "aws.bedrock"),
   (SpanAttributes.AGENT_ID, JValue.str agent_id),
   ("gen_ai.trace_id", JValue.str span_id),
   ("gen_ai.component", JValue.str "routing")]

/-- The creation attributes of an `agent_orchestration` span. -/
def orchCreateAttrs (agent_id trace_id : String) : List (String × JValue) :=
  [(SpanAttributes.SPAN_KIND, JValue.str "CHAIN"),
   (SpanAttributes.OPERATION_NAME, JValue.str "orchestrate_agent"),
   (SpanAttributes.SYSTEM, JValue.str "aws.bedrock"),
   (SpanAttributes.AGENT_ID, JValue.str agent_id),
   ("gen_ai.trace_id", JValue.str trace_id),
   ("gen_ai.component", JValue.str "orchestration")]

/-- The creation attributes of a `tool_execution_*` span. -/
def toolCreateAttrs (tool_name action_group : String) : List (String × JValue) :=
  [(SpanAttributes.SPAN_KIND, JValue.str "TOOL"),
   ("gen_ai.tool.name", JValue.str tool_name),
   ("gen_ai.action_group", JValue.str action_group)]

/-- `span.end()` followed by `del active_spans[span_id]`, guarded by the
source's `if span_id in active_spans` test. -/
def closeIfActive (st : TraceState) (sid : Nat) (span_id : String) : TraceState :=
  if (regLookup st.activeSpans span_id).isSome then
    let st := endSpan st sid
    { st with activeSpans := regDelete st.activeSpans span_id }
  else st

/-- The two `handle_model_invoke_*` dispatches shared by both trace
kinds. -/
def modelHandlers (st : TraceState) (sid : Nat) (mi : Option ModelInvocationInput)
    (mo : Option ModelInvocationOutput) : TraceState :=
  let st :=
    match mi with
    | some d => handle_model_invoke_input st sid d
    | none => st
  match mo with
  | some d => handle_model_invoke_output st sid d
  | none => st

/-- The `finalResponse` branch shared by both trace kinds (`role` is
`"agent"` for routing, `"assistant"` for orchestration). -/
def finalResponseStep (st : TraceState) (sid : Nat) (span_id role : String)
    (fr : FinalResponse) : TraceState :=
  let response_text := fr.text.getD ""
  let st := setAttr st sid SpanAttributes.COMPLETION (.str response_text)
  let st := setAttr st sid "gen_ai.completion.0.content" (.str response_text)
  let st := setAttr st sid "gen_ai.completion.0.role" (.str role)
  closeIfActive st sid span_id

/-- The `agentCollaboratorInvocationOutput` branch of `routing_trace`
(an extraction yielding `None` is recorded as a null value). -/
def collaboratorStep (st : TraceState) (sid : Nat)
    (acd : AgentCollaboratorInvocationOutput) : TraceState :=
  let name := acd.agentCollaboratorName.getD ""
  let collab :=
    match extract_agent_id_from_arn acd with
    | some s => JValue.str s
    | none => JValue.null
  let st := setAttr st sid "gen_ai.collaborator.agent_id" collab
  setAttr st sid "gen_ai.collaborator.name" (.str name)

/-- The `observation` block of `routing_trace`. -/
def routingObservation (st : TraceState) (sid : Nat) (span_id : String)
    (obsOpt : Option Observation) : TraceState :=
  match obsOpt with
  | none => st
  | some obs =>
    let st :=
      match obs.finalResponse with
      | some fr => finalResponseStep st sid span_id "agent" fr
      | none => st
    match obs.agentCollaboratorInvocationOutput with
    | some acd => collaboratorStep st sid acd
    | none => st

/-- `routing_trace(trace_run_id, agent_id, trace)`. -/
def routing_trace (st : TraceState) (trace_run_id agent_id : String) (t : TraceEvent) : TraceState :=
  let routing_data := t.trace.routingClassifierTrace.getD emptyRouting
  let span_id := routingKey trace_run_id t
  let st :=
    if (regLookup st.activeSpans span_id).isSome then st
    else startSpan st span_id "agent_routing" (routingCreateAttrs agent_id span_id)
  let sid := (regLookup st.activeSpans span_id).getD 0
  let st := modelHandlers st sid routing_data.modelInvocationInput
              routing_data.modelInvocationOutput
  routingObservation st sid span_id routing_data.observation

/-- Python `key.startswith(pre)`. -/
def startsWithS (s pre : String) : Bool := pre.data.isPrefixOf s.data

/-- The `invocationInput` branch of `orchestration_trace`: open (or
reuse) the tool-child span keyed by parent key and tool name. -/
def toolInputStep (st : TraceState) (span_id : String) (inv : InvocationInput) : TraceState :=
  let agii := inv.actionGroupInvocationInput.getD ⟨none, none⟩
  let tool_name := agii.function.getD ""
  let action_group := agii.actionGroupName.getD ""
  let tool_span_id := span_id ++ "_tool_" ++ tool_name
  if (regLookup st.activeSpans tool_span_id).isSome then st
  else startSpan st tool_span_id ("tool_execution_" ++ tool_name)
         (toolCreateAttrs tool_name action_group)

/-- The `actionGroupInvocationOutput` branch of `orchestration_trace`:
the first registry entry (in insertion order) whose key extends the
parent's tool prefix receives the result text and is closed; with no
such entry the result is dropped. -/
def toolResultStep (st : TraceState) (span_id : String)
    (tr : ActionGroupInvocationOutput) : TraceState :=
  let tool_text := tr.text.getD ""
  match st.activeSpans.find? (fun e => startsWithS e.1 (span_id ++ "_tool_")) with
  | some hit =>
    let st := setAttr st hit.2 "gen_ai.tool.output" (.str tool_text)
    let st := endSpan st hit.2
    { st with activeSpans := regDelete st.activeSpans hit.1 }
  | none => st

/-- The `observation` block of `orchestration_trace`. -/
def orchObservation (st : TraceState) (sid : Nat) (span_id : String)
    (obsOpt : Option Observation) : TraceState :=
  match obsOpt with
  | none => st
  | some obs =>
    let st :=
      match obs.actionGroupInvocationOutput with
      | some tr => toolResultStep st span_id tr
      | none => st
    match obs.finalResponse with
    | some fr => finalResponseStep st sid span_id "assistant" fr
    | none => st

/-- `orchestration_trace(trace_run_id, agent_id, trace)`. -/
def orchestration_trace (st : TraceState) (trace_run_id agent_id : String) (t : TraceEvent) : TraceState :=
  let orchestration_data := t.trace.orchestrationTrace.getD emptyOrch
  let trace_id := orchestration_data.traceId.getD ""
  let span_id := orchKey trace_run_id t
  let st :=
    if (regLookup st.activeSpans span_id).isSome then st
    else startSpan st span_id "agent_orchestration" (orchCreateAttrs agent_id trace_id)
  let sid := (regLookup st.activeSpans span_id).getD 0
  let st := modelHandlers st sid orchestration_data.modelInvocationInput
              orchestration_data.modelInvocationOutput
  let st :=
    match orchestration_data.invocationInput with
    | some inv => toolInputStep st span_id inv
    | none => st
  orchObservation st sid span_id orchestration_data.observation

/-- `process_trace(trace)`. -/
def process_trace (st : TraceState) (t : TraceEvent) : TraceState :=
  let agent_id := t.agentId
  let session_id := t.sessionId.getD ""
  let trace_run_id := agent_id ++ "_" ++ session_id
  let st :=
    if t.trace.routingClassifierTrace.isSome then routing_trace st trace_run_id agent_id t
    else st
  if t.trace.orchestrationTrace.isSome then orchestration_trace st trace_run_id agent_id t
  else st

/-- One iteration of the event-stream loop in `observe_response`:
accumulate a `chunk`'s decoded bytes, process a `trace` event. -/
def stream_step (acc : String × TraceState) (e : StreamEvent) : String × TraceState :=
  let acc :=
    match e.chunk with
    | some s => (acc.1 ++ s, acc.2)
    | none => acc
  match e.trace with
  | some t => (acc.1, process_trace acc.2 t)
  | none => acc

/-- `observe_response(response)`: clear the registry, drain the stream,
then set the completion attributes on the current root span (handle
`rootSid`).  Returns the accumulated output text and the final state. -/
def rootCompletionAttrs (output : String) : List (String × JValue) :=
  [(SpanAttributes.COMPLETION, .str output),
   (SpanAttributes.COMPLETION_ROLE, .str "assistant"),
   (SpanAttributes.LC_COMPLETION, .str output),
   ("gen_ai.completion.0.content", .str output),
   ("gen_ai.completion.0.role", .str "assistant"),
   (SpanAttributes.SPAN_KIND, .str "LLM")]

def observe_response (st : TraceState) (rootSid : Nat) (response : Response) : String × TraceState :=
  let st := { st with activeSpans := [] }
  let out :=
    match response.completion with
    | some evs => evs.foldl stream_step ("", st)
    | none => ("", st)
  let output := out.1
  let st := out.2
  let st := setAttrs st rootSid (rootCompletionAttrs output)
  (output, st)

/-- The state before anything has run. -/
def initState : TraceState := ⟨[], [], 0⟩

/-- A state holding only the ambient current (root) span, handle 0. -/
def rootedState : TraceState := ⟨[], [⟨0, "", "root", [], false⟩], 1⟩

/-! ## Derived notions used by the statements -/

/-- The creation-time identity of every span started so far: handle,
key, name, in creation order.  Attribute writes and `end()` never change
it, so it measures exactly which spans a step creates. -/
def spanSig (st : TraceState) : List (Nat × String × String) :=
  st.spans.map (fun sp => (sp.sid, sp.key, sp.name))

/-- Concatenation of the decoded `chunk` fragments of a stream, in
arrival order. -/
def chunkConcat : List StreamEvent → String
  | [] => ""
  | e :: rest => (match e.chunk with | some s => s | none => "") ++ chunkConcat rest

/-- Does the routing payload of this event carry a
`observation.finalResponse` (the terminal sub-shape)? -/
def routingHasFinal (t : TraceEvent) : Bool :=
  match (t.trace.routingClassifierTrace.getD emptyRouting).observation with
  | some obs => obs.finalResponse.isSome
  | none => false

/-- Does the orchestration payload of this event carry a
`observation.finalResponse` (the terminal sub-shape)? -/
def orchHasFinal (t : TraceEvent) : Bool :=
  match (t.trace.orchestrationTrace.getD emptyOrch).observation with
  | some obs => obs.finalResponse.isSome
  | none => false

/-- Build an orchestration-only trace event. -/
def mkOrchEvent (aid sess tid : String) (mi : Option ModelInvocationInput)
    (mo : Option ModelInvocationOutput) (r : Option Rationale)
    (inv : Option InvocationInput) (obs : Option Observation) : TraceEvent :=
  { agentId := aid, agentAliasId := "AL", sessionId := some sess,
    trace := { routingClassifierTrace := none,
               orchestrationTrace := some
                 { traceId := some tid, modelInvocationInput := mi,
                   modelInvocationOutput := mo, rationale := r,
                   invocationInput := inv, observation := obs } } }

/-- Build a routing-only trace event. -/
def mkRoutingEvent (aid sess tid : String) (mi : Option ModelInvocationInput)
    (mo : Option ModelInvocationOutput) (obs : Option Observation) : TraceEvent :=
  { agentId := aid, agentAliasId := "AL", sessionId := some sess,
    trace := { routingClassifierTrace := some
                 { traceId := some tid, modelInvocationInput := mi,
                   modelInvocationOutput := mo, observation := obs },
               orchestrationTrace := none } }

/-- A tool-invocation-input event for tool `tool` of action group `ag`. -/
def toolInEvent (aid sess tid tool ag : String) : TraceEvent :=
  mkOrchEvent aid sess tid none none none (some ⟨some ⟨some tool, some ag⟩⟩) none

/-- A tool-invocation-output (tool result) event carrying `res`. -/
def toolOutEvent (aid sess tid res : String) : TraceEvent :=
  mkOrchEvent aid sess tid none none none none (some ⟨none, some ⟨some res⟩, none⟩)

/-- An interleaved same-step event that is unrelated to tool correlation:
model-invocation payloads and/or a rationale on the same orchestration
key, with no `invocationInput` and no `observation`. -/
def midEvent (aid sess tid : String)
    (m : Option ModelInvocationInput × Option ModelInvocationOutput × Option Rationale) :
    TraceEvent :=
  mkOrchEvent aid sess tid m.1 m.2.1 m.2.2 none none

/-- Fold a list of trace events through `process_trace`. -/
def runEvents (st : TraceState) (evs : List TraceEvent) : TraceState :=
  evs.foldl process_trace st

/-- Evaluation checks of the `json.loads` model on representative
inputs. -/
theorem jparse_evaluations :
    jparse "not json" = none ∧
    jparse "  \x7b \x7d " = some (.obj []) ∧
    jparse "[1, -2, \"a\"]" = some (.arr [.num 1, .num (-2), .str "a"]) ∧
    jparse "\x7b\"messages\":[\x7b\"role\":\"system\",\"content\":\"hi\"\x7d]\x7d"
      = some (.obj [("messages", .arr [.obj [("role", .str "system"),
          ("content", .str "hi")]])]) ∧
    jparse "\x7b\"a\":true,\"b\":null,\"c\":false\x7d"
      = some (.obj [("a", .bool true), ("b", .null), ("c", .bool false)]) ∧
    jparse "\"a\\nb\"" = some (.str "a\nb") ∧
    jparse "05" = none ∧
    jparse "" = none :=
  ⟨rfl, rfl, rfl, rfl, rfl, rfl, rfl, rfl⟩

/-- Evaluation check of the extraction routine on a realistic ARN. -/
theorem extract_agent_id_evaluation :
    extract_agent_id_core "arn:aws:bedrock:us-east-1:123:agent-alias/ABC123/XYZ"
      = some "ABC123/XYZ" ∧
    extract_agent_id_core "no marker here" = none :=
  ⟨rfl, rfl⟩

/-- A routing event that closes its span with a final response. -/
def c1FinalEvent : TraceEvent :=
  mkRoutingEvent "A" "S" "t1" none none (some ⟨some ⟨some "done"⟩, none, none⟩)

/-- A later routing event deriving the identical correlation key. -/
def c1LateEvent : TraceEvent :=
  mkRoutingEvent "A" "S" "t1" none none none

/-- The two-tool run: inputs for `alpha` and `beta`, then one result. -/
def c2Run : TraceState :=
  runEvents initState
    [toolInEvent "A" "S" "t9" "alpha" "agA", toolInEvent "A" "S" "t9" "beta" "agB",
     toolOutEvent "A" "S" "t9" "res"]

/-! ## Shared lemmas -/

theorem foldl_stream_fst (evs : List StreamEvent) :
    ∀ (acc : String) (st : TraceState),
      (evs.foldl stream_step (acc, st)).1 = acc ++ chunkConcat evs := by
  induction evs with
  | nil => intro acc st; simp [chunkConcat, String.append_empty]
  | cons e rest ih =>
    intro acc st
    simp only [List.foldl_cons, chunkConcat]
    cases hc : e.chunk <;> cases ht : e.trace <;>
      simp [stream_step, hc, ht, ih, String.append_assoc]

theorem strFind_prefix_of_some :
    ∀ (hay : List Char) (needle : List Char) (p : Nat),
      strFind hay needle = some p → needle.isPrefixOf (hay.drop p) = true := by
  intro hay
  induction hay with
  | nil =>
    intro needle p h
    unfold strFind at h
    split at h
    · cases h; simpa using ‹needle.isPrefixOf [] = true›
    · cases h
  | cons c t ih =>
    intro needle p h
    unfold strFind at h
    split at h
    · cases h
      simpa using ‹needle.isPrefixOf (c :: t) = true›
    · rcases Option.map_eq_some'.mp h with ⟨q, hq, rfl⟩
      simpa using ih needle q hq

theorem strFind_marker_slash (l : List Char) :
    strFind (aliasMarker ++ l) ['/'] = some 12 := by
  simp [aliasMarker, strFind, List.isPrefixOf]

/-! ## C3: collaborator-alias identifier extraction -/

/-- C3 counterexample.  The claim says extraction from a string
containing `:agent-alias/ABC123/XYZ` yields `XYZ`: on
`"x:agent-alias/ABC123/XYZ"` the code yields `ABC123/XYZ` (everything
after the marker, whose own trailing `/` is the first path separator
found), and on `":agent-alias/ABC123/XYZ"` (marker contained, at index
0) it yields nothing at all. -/
theorem c3_counterexample :
    extract_agent_id_core "x:agent-alias/ABC123/XYZ" = some "ABC123/XYZ" ∧
    extract_agent_id_core "x:agent-alias/ABC123/XYZ" ≠ some "XYZ" ∧
    extract_agent_id_core ":agent-alias/ABC123/XYZ" = none := by
  refine ⟨rfl, by decide, rfl⟩

/-- C3 (amended): for every identifier string in which the marker
`":agent-alias/"` first occurs at a strictly positive index `p`,
extraction yields the remainder of the string after the marker (the
agent-id path segment included, e.g. `ABC123/XYZ`); if the marker is
absent, or first occurs at index 0, extraction yields no identifier (and
is not an error). -/
theorem c3_amended (s : String) :
    (∀ p : Nat, strFind s.data aliasMarker = some p → 0 < p →
        extract_agent_id_core s = some ⟨s.data.drop (p + aliasMarker.length)⟩) ∧
    (strFind s.data aliasMarker = none → extract_agent_id_core s = none) ∧
    (strFind s.data aliasMarker = some 0 → extract_agent_id_core s = none) := by
  refine ⟨?_, ?_, ?_⟩
  · intro p hfind hp
    have hpre := strFind_prefix_of_some s.data aliasMarker p hfind
    rcases List.isPrefixOf_iff_prefix.mp hpre with ⟨tail, htail⟩
    unfold extract_agent_id_core
    rw [hfind]
    simp only [hp, if_pos]
    rw [← htail, strFind_marker_slash]
    have h13 : aliasMarker.length = 13 := rfl
    have hdrop : (aliasMarker ++ tail).drop (12 + 1) = tail := by
      simp [show (12 + 1 : Nat) = aliasMarker.length from rfl, List.drop_left]
    simp only [hdrop]
    have : tail = s.data.drop (p + aliasMarker.length) := by
      have := congrArg (List.drop 13) htail
      simpa [List.drop_drop, h13, List.drop_left] using this
    simp [this]
  · intro h
    unfold extract_agent_id_core
    rw [h]
  · intro h
    unfold extract_agent_id_core
    rw [h]
    simp

/-- Closed instance of `c3_amended` at a concrete input, every
hypothesis discharged by evaluation. -/
theorem c3_amended_witness :
    extract_agent_id_core "x:agent-alias/ABC123/XYZ"
      = some ⟨"x:agent-alias/ABC123/XYZ".data.drop 14⟩ :=
  (c3_amended "x:agent-alias/ABC123/XYZ").1 1 rfl (by decide)

/-! ## C7: the returned text is the chunk concatenation -/

/-- C7: for every input state, root span and response, the string
`observe_response` returns equals the concatenation, in arrival order,
of the decoded bytes of all `chunk` elements of the stream, however many
`trace` events are interleaved among them. -/
theorem c7_output_is_chunk_concat (st : TraceState) (rootSid : Nat) (resp : Response) :
    (observe_response st rootSid resp).1 = chunkConcat (resp.completion.getD []) := by
  cases h : resp.completion with
  | none => simp [observe_response, h, chunkConcat]
  | some evs => simp [observe_response, h, foldl_stream_fst]

/-! ## C8: token accounting -/

/-- A model-invocation-output with `inputTokens=12, outputTokens=34`. -/
def tokenExample : ModelInvocationOutput := ⟨some ⟨some ⟨some 12, some 34⟩⟩, none⟩

/-- C8: every model-invocation-output writes a prompt-token, a
completion-token and a total-token attribute, the total being the exact
integer sum of the other two; absent counts default to 0; and
`inputTokens=12, outputTokens=34` yields total 46. -/
theorem c8_token_accounting (d : ModelInvocationOutput) :
    (SpanAttributes.USAGE_PROMPT_TOKENS, JValue.num (tokensIn d))
        ∈ handle_model_invoke_output_attrs d ∧
    (SpanAttributes.USAGE_COMPLETION_TOKENS, JValue.num (tokensOut d))
        ∈ handle_model_invoke_output_attrs d ∧
    (SpanAttributes.USAGE_TOTAL_TOKENS, JValue.num (tokensIn d + tokensOut d))
        ∈ handle_model_invoke_output_attrs d ∧
    tokensIn ⟨none, none⟩ = 0 ∧ tokensOut ⟨some ⟨none⟩, none⟩ = 0 ∧
    (SpanAttributes.USAGE_TOTAL_TOKENS, JValue.num 46)
        ∈ handle_model_invoke_output_attrs tokenExample := by
  refine ⟨?_, ?_, ?_, rfl, rfl, ?_⟩ <;>
    norm_num [handle_model_invoke_output_attrs, tokenExample, tokensIn, tokensOut]

/-! ## C6: best-effort prompt/completion parsing never raises -/

/-- Is this JSON value an object (a Python dict)? -/
def isObjB : JValue → Bool
  | .obj _ => true
  | _ => false

/-- `msg.get("role", "user")` of an expanded message. -/
def msgRole : JValue → JValue
  | .obj kvs => dictGetD kvs "role" (.str "user")
  | _ => .str "user"

/-- `msg.get("content", "")` of an expanded message. -/
def msgContent : JValue → JValue
  | .obj kvs => dictGetD kvs "content" (.str "")
  | _ => .str ""

theorem expandMessages_mem (msgs : List JValue) :
    ∀ (start : Nat), (∀ m ∈ msgs, isObjB m = true) →
      ∀ (i : Nat) (h : i < msgs.length),
        (promptRoleKey (start + i), msgRole (msgs.get ⟨i, h⟩)) ∈ (expandMessages start msgs).1 ∧
        (promptContentKey (start + i), msgContent (msgs.get ⟨i, h⟩)) ∈ (expandMessages start msgs).1 := by
  induction msgs with
  | nil => intro start _ i h; exact absurd h (Nat.not_lt_zero i)
  | cons m rest ih =>
    intro start hall i h
    have hm : isObjB m = true := hall m (List.mem_cons_self m rest)
    cases m with
    | obj kvs =>
      cases i with
      | zero => constructor <;> simp [expandMessages, msgRole, msgContent]
      | succ j =>
        have hj : j < rest.length := Nat.lt_of_succ_lt_succ h
        have hrest := ih (start + 1) (fun x hx => hall x (List.mem_cons_of_mem _ hx)) j hj
        have harith : start + (j + 1) = (start + 1) + j := by omega
        rw [harith]
        constructor <;> simp [expandMessages] <;>
          [exact Or.inr (Or.inr hrest.1); exact Or.inr (Or.inr hrest.2)]
    | null => exact absurd hm (by simp [isObjB])
    | bool b => exact absurd hm (by simp [isObjB])
    | num n => exact absurd hm (by simp [isObjB])
    | str s => exact absurd hm (by simp [isObjB])
    | arr xs => exact absurd hm (by simp [isObjB])

theorem dictAny_of_getD_arr (kvs : List (String × JValue)) (msgs : List JValue) :
    dictGetD kvs "messages" (.arr []) = .arr msgs → msgs ≠ [] →
    kvs.any (fun e => e.1 == "messages") = true := by
  intro hd hne
  by_contra hany
  rw [Bool.not_eq_true] at hany
  have hall : ∀ x ∈ kvs.reverse, ¬((fun (e : String × JValue) => e.1 == "messages") x = true) := by
    intro x hx hpx
    have : kvs.any (fun e => e.1 == "messages") = true :=
      List.any_eq_true.mpr ⟨x, List.mem_reverse.mp hx, hpx⟩
    rw [this] at hany
    cases hany
  have hnone : dictGet? kvs "messages" = none := by
    unfold dictGet?
    rw [List.find?_eq_none.mpr hall]
    rfl
  rw [dictGetD, hnone] at hd
  injection hd with hd2
  exact hne hd2.symm

theorem mem_input_attrs_of_mem_dynamic (d : ModelInvocationInput) (p : String × JValue)
    (hp : p ∈ (promptTryAttrs (d.text.getD "")).1 ++
        (if (promptTryAttrs (d.text.getD "")).2 = true then fallbackPromptAttrs (d.text.getD "")
         else [])) :
    p ∈ handle_model_invoke_input_attrs d := by
  simp only [handle_model_invoke_input_attrs]
  exact List.mem_append.mpr (Or.inl (List.mem_append.mpr (Or.inr hp)))

theorem mem_output_attrs_of_mem_raw (d : ModelInvocationOutput) (rr : RawResponse)
    (content : String) (hdr : d.rawResponse = some rr) (hrc : rr.content = some content)
    (p : String × JValue)
    (hp : p ∈ (rawResponseTryAttrs content).1 ++
        (if (rawResponseTryAttrs content).2 = true
         then [("gen_ai.raw_response", JValue.str content)] else [])) :
    p ∈ handle_model_invoke_output_attrs d := by
  simp only [handle_model_invoke_output_attrs, hdr, hrc]
  exact List.mem_append.mpr (Or.inl (List.mem_append.mpr (Or.inr hp)))

/-- C6: malformed embedded JSON is recovered locally, never raised.
Input side: whenever the `try` block of `handle_model_invoke_input`
raises (in particular whenever the prompt text fails to parse), the
mapper still returns an attribute batch that carries the raw prompt text
under the single fallback prompt attribute with role `"user"`.  When the
prompt text parses to an object whose `messages` value is an array of
message objects, each message is expanded into indexed prompt-role and
prompt-content pairs instead.  Output side: when the raw response
content fails to parse, the batch carries it verbatim under the
raw-response fallback attribute. -/
theorem c6_malformed_payload_fallback :
    (∀ (d : ModelInvocationInput) (pt : String), d.text = some pt →
        (promptTryAttrs pt).2 = true →
        ("gen_ai.prompt.0.content", JValue.str pt) ∈ handle_model_invoke_input_attrs d ∧
        ("gen_ai.prompt.0.role", JValue.str "user") ∈ handle_model_invoke_input_attrs d) ∧
    (∀ pt : String, jparse pt = none → (promptTryAttrs pt).2 = true) ∧
    (∀ (d : ModelInvocationInput) (pt : String) (kvs : List (String × JValue))
        (msgs : List JValue), d.text = some pt → jparse pt = some (.obj kvs) →
        dictGetD kvs "messages" (.arr []) = .arr msgs →
        (∀ m ∈ msgs, isObjB m = true) →
        ∀ (i : Nat) (h : i < msgs.length),
          (promptRoleKey i, msgRole (msgs.get ⟨i, h⟩)) ∈ handle_model_invoke_input_attrs d ∧
          (promptContentKey i, msgContent (msgs.get ⟨i, h⟩)) ∈ handle_model_invoke_input_attrs d) ∧
    (∀ (d : ModelInvocationOutput) (rr : RawResponse) (content : String),
        d.rawResponse = some rr → rr.content = some content → jparse content = none →
        ("gen_ai.raw_response", JValue.str content) ∈ handle_model_invoke_output_attrs d) := by
  refine ⟨?_, ?_, ?_, ?_⟩
  · intro d pt hdt hraised
    constructor <;>
      simp [handle_model_invoke_input_attrs, hdt, hraised, fallbackPromptAttrs]
  · intro pt h
    simp [promptTryAttrs, h]
  · intro d pt kvs msgs hdt hparse hdict hall i h
    have hne : msgs ≠ [] := by
      intro he
      rw [he] at h
      exact absurd h (Nat.not_lt_zero i)
    have hany := dictAny_of_getD_arr kvs msgs hdict hne
    have htry : promptTryAttrs pt = expandMessages 0 msgs := by
      simp [promptTryAttrs, hparse, pyInJ, hany, hdict]
    have hmem := expandMessages_mem msgs 0 hall i h
    rw [Nat.zero_add] at hmem
    have hdyn : ∀ p : String × JValue, p ∈ (expandMessages 0 msgs).1 →
        p ∈ (promptTryAttrs (d.text.getD "")).1 ++
          (if (promptTryAttrs (d.text.getD "")).2 = true then fallbackPromptAttrs (d.text.getD "")
           else []) := by
      intro p hin
      rw [hdt]
      simp only [Option.getD_some, htry]
      exact List.mem_append_left _ hin
    exact ⟨mem_input_attrs_of_mem_dynamic d _ (hdyn _ hmem.1),
           mem_input_attrs_of_mem_dynamic d _ (hdyn _ hmem.2)⟩
  · intro d rr content hdr hrc hparse
    have htr : rawResponseTryAttrs content = ([], true) := by
      unfold rawResponseTryAttrs
      rw [hparse]
    apply mem_output_attrs_of_mem_raw d rr content hdr hrc
    rw [htr]
    simp

/-- A prompt text whose JSON parse succeeds and holds a `messages`
array. -/
def goodPrompt : String :=
  "\x7b\"messages\":[\x7b\"role\":\"system\",\"content\":\"hi\"\x7d]\x7d"

/-- Closed instance of `c6_malformed_payload_fallback`: concrete inputs
discharging every hypothesis by evaluation. -/
theorem c6_witness :
    ("gen_ai.prompt.0.content", JValue.str "not json")
        ∈ handle_model_invoke_input_attrs ⟨none, some "not json", none, none⟩ ∧
    (promptTryAttrs "not json").2 = true ∧
    (promptRoleKey 0, msgRole (JValue.obj [("role", .str "system"), ("content", .str "hi")]))
        ∈ handle_model_invoke_input_attrs ⟨none, some goodPrompt, none, none⟩ ∧
    ("gen_ai.raw_response", JValue.str "not json")
        ∈ handle_model_invoke_output_attrs ⟨none, some ⟨some "not json", none⟩⟩ := by
  refine ⟨(c6_malformed_payload_fallback.1 ⟨none, some "not json", none, none⟩ "not json"
      rfl rfl).1, c6_malformed_payload_fallback.2.1 "not json" rfl, ?_, ?_⟩
  · exact (c6_malformed_payload_fallback.2.2.1 ⟨none, some goodPrompt, none, none⟩ goodPrompt
      [("messages", .arr [.obj [("role", .str "system"), ("content", .str "hi")]])]
      [.obj [("role", .str "system"), ("content", .str "hi")]]
      rfl rfl rfl (by intro m hm; simp at hm; simp [hm, isObjB]) 0 (by decide)).1
  · exact c6_malformed_payload_fallback.2.2.2 ⟨none, some ⟨some "not json", none⟩⟩
      ⟨some "not json", none⟩ "not json" rfl rfl rfl

/-! ## State-machine lemmas -/

theorem setAttr_activeSpans (st : TraceState) (i : Nat) (k : String) (v : JValue) :
    (setAttr st i k v).activeSpans = st.activeSpans := rfl

theorem setAttr_nextSid (st : TraceState) (i : Nat) (k : String) (v : JValue) :
    (setAttr st i k v).nextSid = st.nextSid := rfl

theorem endSpan_activeSpans (st : TraceState) (i : Nat) :
    (endSpan st i).activeSpans = st.activeSpans := rfl

theorem endSpan_nextSid (st : TraceState) (i : Nat) :
    (endSpan st i).nextSid = st.nextSid := rfl

theorem spanSig_setAttr (st : TraceState) (i : Nat) (k : String) (v : JValue) :
    spanSig (setAttr st i k v) = spanSig st := by
  simp only [spanSig, setAttr, List.map_map]
  apply List.map_eq_map_iff.mpr
  intro sp _
  by_cases hc : (sp.sid == i && !sp.ended) = true <;> simp [Function.comp, hc]

theorem spanSig_endSpan (st : TraceState) (i : Nat) :
    spanSig (endSpan st i) = spanSig st := by
  simp only [spanSig, endSpan, List.map_map]
  apply List.map_eq_map_iff.mpr
  intro sp _
  by_cases hc : (sp.sid == i) = true <;> simp [Function.comp, hc]

theorem setAttrs_activeSpans (l : List (String × JValue)) :
    ∀ (st : TraceState) (i : Nat), (setAttrs st i l).activeSpans = st.activeSpans := by
  induction l with
  | nil => intro st i; rfl
  | cons kv rest ih =>
    intro st i
    obtain ⟨k, v⟩ := kv
    simp only [setAttrs]
    rw [ih, setAttr_activeSpans]

theorem setAttrs_nextSid (l : List (String × JValue)) :
    ∀ (st : TraceState) (i : Nat), (setAttrs st i l).nextSid = st.nextSid := by
  induction l with
  | nil => intro st i; rfl
  | cons kv rest ih =>
    intro st i
    obtain ⟨k, v⟩ := kv
    simp only [setAttrs]
    rw [ih, setAttr_nextSid]

theorem spanSig_setAttrs (l : List (String × JValue)) :
    ∀ (st : TraceState) (i : Nat), spanSig (setAttrs st i l) = spanSig st := by
  induction l with
  | nil => intro st i; rfl
  | cons kv rest ih =>
    intro st i
    obtain ⟨k, v⟩ := kv
    simp only [setAttrs]
    rw [ih, spanSig_setAttr]

theorem setAttrs_spans (l : List (String × JValue)) :
    ∀ (st : TraceState) (i : Nat),
      (setAttrs st i l).spans = st.spans.map (fun sp =>
        if sp.sid == i && !sp.ended then { sp with attrs := sp.attrs ++ l } else sp) := by
  induction l with
  | nil =>
    intro st i
    have : (fun sp : Span =>
        if sp.sid == i && !sp.ended then { sp with attrs := sp.attrs ++ [] } else sp) = id := by
      funext sp
      by_cases hc : (sp.sid == i && !sp.ended) = true <;> simp [hc]
    rw [this, List.map_id]
    rfl
  | cons kv rest ih =>
    intro st i
    obtain ⟨k, v⟩ := kv
    simp only [setAttrs]
    rw [ih]
    simp only [setAttr, List.map_map]
    apply List.map_eq_map_iff.mpr
    intro sp _
    by_cases hc : (sp.sid == i && !sp.ended) = true <;>
      simp [Function.comp, hc]

theorem setAttrs_append (a b : List (String × JValue)) :
    ∀ (st : TraceState) (i : Nat), setAttrs st i (a ++ b) = setAttrs (setAttrs st i a) i b := by
  induction a with
  | nil => intro st i; rfl
  | cons kv rest ih =>
    intro st i
    obtain ⟨k, v⟩ := kv
    simp only [setAttrs, List.cons_append]
    exact ih _ _

/-- The combined attribute batch the two model-invocation dispatches
write. -/
def modelHandlersAttrs (mi : Option ModelInvocationInput)
    (mo : Option ModelInvocationOutput) : List (String × JValue) :=
  (match mi with
   | some d => handle_model_invoke_input_attrs d
   | none => []) ++
  (match mo with
   | some d => handle_model_invoke_output_attrs d
   | none => [])

theorem modelHandlers_eq_setAttrs (st : TraceState) (sid : Nat)
    (mi : Option ModelInvocationInput) (mo : Option ModelInvocationOutput) :
    modelHandlers st sid mi mo = setAttrs st sid (modelHandlersAttrs mi mo) := by
  cases mi <;> cases mo <;>
    simp [modelHandlers, modelHandlersAttrs, handle_model_invoke_input,
      handle_model_invoke_output, setAttrs_append, setAttrs]

theorem modelHandlers_none (st : TraceState) (sid : Nat) :
    modelHandlers st sid none none = st := rfl

theorem modelHandlers_activeSpans (st : TraceState) (sid : Nat)
    (mi : Option ModelInvocationInput) (mo : Option ModelInvocationOutput) :
    (modelHandlers st sid mi mo).activeSpans = st.activeSpans := by
  rw [modelHandlers_eq_setAttrs, setAttrs_activeSpans]

theorem modelHandlers_nextSid (st : TraceState) (sid : Nat)
    (mi : Option ModelInvocationInput) (mo : Option ModelInvocationOutput) :
    (modelHandlers st sid mi mo).nextSid = st.nextSid := by
  rw [modelHandlers_eq_setAttrs, setAttrs_nextSid]

theorem spanSig_modelHandlers (st : TraceState) (sid : Nat)
    (mi : Option ModelInvocationInput) (mo : Option ModelInvocationOutput) :
    spanSig (modelHandlers st sid mi mo) = spanSig st := by
  rw [modelHandlers_eq_setAttrs, spanSig_setAttrs]

theorem spanSig_startSpan (st : TraceState) (key name : String)
    (attrs : List (String × JValue)) :
    spanSig (startSpan st key name attrs) = spanSig st ++ [(st.nextSid, key, name)] := by
  simp [spanSig, startSpan]

theorem spanSig_withActive (st : TraceState) (reg : List (String × Nat)) :
    spanSig { st with activeSpans := reg } = spanSig st := rfl

theorem spanSig_closeIfActive (st : TraceState) (sid : Nat) (span_id : String) :
    spanSig (closeIfActive st sid span_id) = spanSig st := by
  unfold closeIfActive
  by_cases h : (regLookup st.activeSpans span_id).isSome <;>
    simp [h, spanSig_withActive, spanSig_endSpan]

theorem closeIfActive_nextSid (st : TraceState) (sid : Nat) (span_id : String) :
    (closeIfActive st sid span_id).nextSid = st.nextSid := by
  unfold closeIfActive
  by_cases h : (regLookup st.activeSpans span_id).isSome <;> simp [h, endSpan_nextSid]

theorem spanSig_finalResponseStep (st : TraceState) (sid : Nat) (span_id role : String)
    (fr : FinalResponse) :
    spanSig (finalResponseStep st sid span_id role fr) = spanSig st := by
  simp [finalResponseStep, spanSig_closeIfActive, spanSig_setAttr]

theorem finalResponseStep_nextSid (st : TraceState) (sid : Nat) (span_id role : String)
    (fr : FinalResponse) :
    (finalResponseStep st sid span_id role fr).nextSid = st.nextSid := by
  simp [finalResponseStep, closeIfActive_nextSid, setAttr_nextSid]

theorem spanSig_collaboratorStep (st : TraceState) (sid : Nat)
    (acd : AgentCollaboratorInvocationOutput) :
    spanSig (collaboratorStep st sid acd) = spanSig st := by
  simp [collaboratorStep, spanSig_setAttr]

theorem spanSig_routingObservation (st : TraceState) (sid : Nat) (span_id : String)
    (obsOpt : Option Observation) :
    spanSig (routingObservation st sid span_id obsOpt) = spanSig st := by
  unfold routingObservation
  cases obsOpt with
  | none => rfl
  | some obs =>
    cases hf : obs.finalResponse <;> cases ha : obs.agentCollaboratorInvocationOutput <;>
      simp [hf, ha, spanSig_collaboratorStep, spanSig_finalResponseStep]

theorem spanSig_toolResultStep (st : TraceState) (span_id : String)
    (tr : ActionGroupInvocationOutput) :
    spanSig (toolResultStep st span_id tr) = spanSig st := by
  unfold toolResultStep
  cases h : st.activeSpans.find? (fun e => startsWithS e.1 (span_id ++ "_tool_")) with
  | none => rfl
  | some hit =>
    simp only [h]
    rw [spanSig_withActive, spanSig_endSpan, spanSig_setAttr]

theorem toolResultStep_nextSid (st : TraceState) (span_id : String)
    (tr : ActionGroupInvocationOutput) :
    (toolResultStep st span_id tr).nextSid = st.nextSid := by
  unfold toolResultStep
  cases h : st.activeSpans.find? (fun e => startsWithS e.1 (span_id ++ "_tool_")) with
  | none => rfl
  | some hit => rfl

theorem spanSig_orchObservation (st : TraceState) (sid : Nat) (span_id : String)
    (obsOpt : Option Observation) :
    spanSig (orchObservation st sid span_id obsOpt) = spanSig st := by
  unfold orchObservation
  cases obsOpt with
  | none => rfl
  | some obs =>
    cases ht : obs.actionGroupInvocationOutput <;> cases hf : obs.finalResponse <;>
      simp [ht, hf, spanSig_toolResultStep, spanSig_finalResponseStep]

theorem regLookup_append_of_some (reg : List (String × Nat)) (k : String) (s : Nat)
    (h : regLookup reg k = some s) (e : String × Nat) :
    regLookup (reg ++ [e]) k = some s := by
  induction reg with
  | nil => simp [regLookup] at h
  | cons x rest ih =>
    by_cases hx : x.1 = k
    · simp only [regLookup, hx, if_pos] at h ⊢
      exact h
    · simp only [List.cons_append, regLookup, hx, if_neg, ite_false] at h ⊢
      exact ih h

theorem regLookup_append_self (reg : List (String × Nat)) (k : String) (j : Nat)
    (h : regLookup reg k = none) :
    regLookup (reg ++ [(k, j)]) k = some j := by
  induction reg with
  | nil => simp [regLookup]
  | cons x rest ih =>
    by_cases hx : x.1 = k
    · simp only [regLookup, hx, if_pos] at h
      cases h
    · simp only [regLookup, hx, if_neg, ite_false] at h
      simp only [List.cons_append, regLookup, hx, if_neg, ite_false]
      exact ih h

theorem regLookup_delete_ne (reg : List (String × Nat)) (k kd : String) (h : k ≠ kd) :
    regLookup (regDelete reg kd) k = regLookup reg k := by
  induction reg with
  | nil => rfl
  | cons e rest ih =>
    by_cases he : e.1 = kd
    · have h2 : ¬ e.1 = k := by
        intro hh
        exact h (hh.symm.trans he)
      rw [show regDelete (e :: rest) kd = regDelete rest kd from by simp [regDelete, he]]
      rw [show regLookup (e :: rest) k = regLookup rest k from by simp [regLookup, h2]]
      exact ih
    · rw [show regDelete (e :: rest) kd = e :: regDelete rest kd from by simp [regDelete, he]]
      by_cases hk : e.1 = k
      · rw [show regLookup (e :: regDelete rest kd) k = some e.2 from by simp [regLookup, hk]]
        rw [show regLookup (e :: rest) k = some e.2 from by simp [regLookup, hk]]
      · rw [show regLookup (e :: regDelete rest kd) k = regLookup (regDelete rest kd) k from by
          simp [regLookup, hk]]
        rw [show regLookup (e :: rest) k = regLookup rest k from by simp [regLookup, hk]]
        exact ih

theorem regLookup_none_of_forall (reg : List (String × Nat)) (k : String)
    (h : ∀ e ∈ reg, ¬ e.1 = k) : regLookup reg k = none := by
  induction reg with
  | nil => rfl
  | cons e rest ih =>
    simp only [regLookup, h e (List.mem_cons_self e rest), ite_false]
    exact ih (fun x hx => h x (List.mem_cons_of_mem e hx))

theorem forall_of_regLookup_none (reg : List (String × Nat)) (k : String)
    (h : regLookup reg k = none) : ∀ e ∈ reg, ¬ e.1 = k := by
  induction reg with
  | nil => intro e he; cases he
  | cons x rest ih =>
    intro e he
    by_cases hx : x.1 = k
    · simp [regLookup, hx] at h
    · simp only [regLookup, hx, ite_false] at h
      rcases List.mem_cons.mp he with rfl | hmem
      · exact hx
      · exact ih h e hmem

/-! ## C4: rationale events -/

/-- An orchestration event whose only payload is a `rationale`. -/
def ratEvent : TraceEvent :=
  mkOrchEvent "A" "S" "t1" none none (some ⟨some "because"⟩) none none

/-- C4 counterexample.  Processing an event whose orchestration payload
carries (only) a rationale with text `"because"` yields exactly one span,
still open, with no attribute keyed `gen_ai.reasoning` and no attribute
whose value is the reasoning text: the mapper does not record the
rationale at all, contradicting the claim that the text is recorded
verbatim under the dedicated attribute. -/
theorem c4_counterexample :
    (runEvents initState [ratEvent]).spans.map (fun sp =>
        (sp.ended,
         sp.attrs.filter (fun p => p.1 == SpanAttributes.REASONING),
         sp.attrs.filter (fun p =>
           match p.2 with
           | .str s => s == "because"
           | _ => false)))
      = [(false, [], [])] := by
  rfl

/-- Replace the (never-read) rationale field of an event's orchestration
payload. -/
def setOrchRationale (e : TraceEvent) (r : Option Rationale) : TraceEvent :=
  { e with trace := { e.trace with
      orchestrationTrace := e.trace.orchestrationTrace.map (fun o => { o with rationale := r }) } }

/-- C4 (amended): rationale events are ignored.  Processing any event is
wholly insensitive to the rationale payload (so the reasoning text is
never recorded under the dedicated `REASONING` attribute, which the
attribute module defines but no mapper writes), and an event carrying
only a rationale leaves its routing/orchestration span open with only
the creation attributes, none of them keyed `gen_ai.reasoning`. -/
theorem c4_amended_rationale_ignored (st : TraceState) (e : TraceEvent) (r : Option Rationale)
    (aid sess tid rtext : String) :
    process_trace st (setOrchRationale e r) = process_trace st e ∧
    (runEvents initState
        [mkOrchEvent aid sess tid none none (some ⟨some rtext⟩) none none]).spans.map
        (fun sp => (sp.ended, sp.attrs.filter (fun p => p.1 == SpanAttributes.REASONING)))
      = [(false, [])] := by
  constructor
  · obtain ⟨a, al, se, ⟨rt, ot⟩⟩ := e
    cases ot with
    | none => rfl
    | some o => obtain ⟨f1, f2, f3, f4, f5, f6⟩ := o; rfl
  · simp [runEvents, process_trace, mkOrchEvent, orchestration_trace, emptyOrch,
      initState, regLookup, modelHandlers, orchObservation, orchKey, startSpan,
      orchCreateAttrs, SpanAttributes.SPAN_KIND, SpanAttributes.OPERATION_NAME,
      SpanAttributes.SYSTEM, SpanAttributes.AGENT_ID, SpanAttributes.REASONING,
      List.filter]

/-- Closed instance of `c4_amended_rationale_ignored`. -/
theorem c4_amended_witness :
    process_trace initState (setOrchRationale ratEvent none) = process_trace initState ratEvent :=
  (c4_amended_rationale_ignored initState ratEvent none "A" "S" "t1" "because").1

/-! ## C10: a response with no completion stream -/

/-- C10: when the response mapping has no `completion` key,
`observe_response` returns the empty string, processes no event (the
registry ends empty and no span is created), and still writes the
completion attributes — empty completion content with role
`"assistant"` — on the current root span. -/
theorem c10_no_completion_stream (st : TraceState) (root : Nat) (resp : Response)
    (h : resp.completion = none) :
    (observe_response st root resp).1 = "" ∧
    (observe_response st root resp).2.activeSpans = [] ∧
    spanSig (observe_response st root resp).2 = spanSig st ∧
    ∀ sp ∈ st.spans, sp.sid = root → sp.ended = false →
      { sp with attrs := sp.attrs ++ rootCompletionAttrs "" }
        ∈ (observe_response st root resp).2.spans := by
  refine ⟨by simp [observe_response, h], ?_, ?_, ?_⟩
  · simp [observe_response, h, setAttrs_activeSpans]
  · simp [observe_response, h, spanSig_setAttrs, spanSig_withActive]
  · intro sp hsp hsid hopen
    simp only [observe_response, h, setAttrs_spans]
    have hc : (sp.sid == root && !sp.ended) = true := by
      simp [hsid, hopen]
    refine List.mem_map.mpr ⟨sp, hsp, ?_⟩
    simp [hc]

/-- Closed instance of `c10_no_completion_stream`: the rooted state and
a completion-free response. -/
theorem c10_witness :
    (observe_response rootedState 0 ⟨none⟩).1 = "" ∧
    (⟨0, "", "root", [] ++ rootCompletionAttrs "", false⟩ : Span)
      ∈ (observe_response rootedState 0 ⟨none⟩).2.spans := by
  refine ⟨(c10_no_completion_stream rootedState 0 ⟨none⟩ rfl).1, ?_⟩
  exact (c10_no_completion_stream rootedState 0 ⟨none⟩ rfl).2.2.2
    ⟨0, "", "root", [], false⟩ (by simp [rootedState]) rfl rfl

/-! ## Key-shape lemmas -/

theorem startsWith_tool_key (K nm : String) :
    startsWithS (K ++ "_tool_" ++ nm) (K ++ "_tool_") = true := by
  unfold startsWithS
  apply List.isPrefixOf_iff_prefix.mpr
  rw [show ((K ++ "_tool_" ++ nm)).data = (K ++ "_tool_").data ++ nm.data from rfl]
  exact List.prefix_append _ _

theorem ne_of_startsWith_tool (k K : String) (hs : startsWithS k (K ++ "_tool_") = true) :
    k ≠ K := by
  intro he
  subst he
  have hp := List.isPrefixOf_iff_prefix.mp hs
  have hl := hp.length_le
  rw [show (k ++ "_tool_").data = k.data ++ ("_tool_" : String).data from rfl,
    List.length_append, show ("_tool_" : String).data.length = 6 from rfl] at hl
  omega

theorem tool_key_ne_parent (K nm : String) : (K ++ "_tool_" ++ nm) ≠ K :=
  ne_of_startsWith_tool _ _ (startsWith_tool_key K nm)

/-! ## Branch specifications -/

theorem toolInputStep_cases (st : TraceState) (span_id : String) (inv : InvocationInput) :
    toolInputStep st span_id inv = st ∨
    ∃ nm ag, toolInputStep st span_id inv
      = startSpan st (span_id ++ "_tool_" ++ nm) ("tool_execution_" ++ nm)
          (toolCreateAttrs nm ag) := by
  unfold toolInputStep
  by_cases h : (regLookup st.activeSpans
      (span_id ++ "_tool_" ++
        ((inv.actionGroupInvocationInput.getD ⟨none, none⟩).function.getD ""))).isSome
  · left
    simp [h]
  · right
    refine ⟨(inv.actionGroupInvocationInput.getD ⟨none, none⟩).function.getD "",
      (inv.actionGroupInvocationInput.getD ⟨none, none⟩).actionGroupName.getD "", ?_⟩
    simp [h]

theorem toolResultStep_lookup_parent (st : TraceState) (span_id : String)
    (tr : ActionGroupInvocationOutput) :
    regLookup (toolResultStep st span_id tr).activeSpans span_id
      = regLookup st.activeSpans span_id := by
  unfold toolResultStep
  cases hf : st.activeSpans.find? (fun e => startsWithS e.1 (span_id ++ "_tool_")) with
  | none => rfl
  | some hit =>
    have hp : startsWithS hit.1 (span_id ++ "_tool_") = true := by
      simpa using List.find?_some hf
    have hne : span_id ≠ hit.1 := (ne_of_startsWith_tool hit.1 span_id hp).symm
    simp only [hf]
    exact regLookup_delete_ne _ _ _ hne

theorem finalResponseStep_activeSpans_shape (st : TraceState) (sid : Nat)
    (span_id role : String) (fr : FinalResponse) :
    (finalResponseStep st sid span_id role fr).activeSpans = st.activeSpans ∨
    (finalResponseStep st sid span_id role fr).activeSpans = regDelete st.activeSpans span_id := by
  unfold finalResponseStep closeIfActive
  by_cases h : (regLookup st.activeSpans span_id).isSome = true
  · right
    simp [setAttr_activeSpans, endSpan_activeSpans, h]
  · left
    simp [setAttr_activeSpans, h]

theorem routingObservation_activeSpans_noFinal (st : TraceState) (sid : Nat) (span_id : String)
    (obsOpt : Option Observation)
    (hfin : match obsOpt with
            | some obs => obs.finalResponse = none
            | none => True) :
    (routingObservation st sid span_id obsOpt).activeSpans = st.activeSpans := by
  unfold routingObservation
  cases obsOpt with
  | none => rfl
  | some obs =>
    simp only at hfin
    cases ha : obs.agentCollaboratorInvocationOutput <;>
      simp [hfin, ha, collaboratorStep, setAttr_activeSpans]

theorem orchObservation_lookup_parent_noFinal (st : TraceState) (sid : Nat) (span_id : String)
    (obsOpt : Option Observation)
    (hfin : match obsOpt with
            | some obs => obs.finalResponse = none
            | none => True) :
    regLookup (orchObservation st sid span_id obsOpt).activeSpans span_id
      = regLookup st.activeSpans span_id := by
  unfold orchObservation
  cases obsOpt with
  | none => rfl
  | some obs =>
    simp only at hfin
    cases ht : obs.actionGroupInvocationOutput with
    | none => simp [hfin, ht]
    | some tr => simp [hfin, ht, toolResultStep_lookup_parent]

/-! ## C1: closed keys are reopened by later same-key events -/

/-- C1 counterexample.  A routing final-response closes and evicts key
`"A_S_routing_t1"`; a later event deriving the identical key is not
dropped: it starts a second `agent_routing` span under the same key and
re-registers the key, so the span set ends with two spans of that key
(the first ended, the second open). -/
theorem c1_counterexample :
    spanSig (runEvents initState [c1FinalEvent, c1LateEvent])
      = [(0, "A_S_routing_t1", "agent_routing"), (1, "A_S_routing_t1", "agent_routing")] ∧
    (runEvents initState [c1FinalEvent, c1LateEvent]).activeSpans = [("A_S_routing_t1", 1)] ∧
    (runEvents initState [c1FinalEvent, c1LateEvent]).spans.map Span.ended = [true, false] :=
  ⟨rfl, rfl, rfl⟩

theorem routing_creates (st : TraceState) (tri aid : String) (t : TraceEvent)
    (h : regLookup st.activeSpans (routingKey tri t) = none) :
    spanSig (routing_trace st tri aid t)
      = spanSig st ++ [(st.nextSid, routingKey tri t, "agent_routing")] := by
  simp only [routing_trace, h, Option.isSome_none, Bool.false_eq_true, ite_false,
    spanSig_routingObservation, spanSig_modelHandlers, spanSig_startSpan]

theorem orch_creates (st : TraceState) (tri aid : String) (t : TraceEvent)
    (h : regLookup st.activeSpans (orchKey tri t) = none) :
    ∃ tail, spanSig (orchestration_trace st tri aid t)
      = spanSig st ++ (st.nextSid, orchKey tri t, "agent_orchestration") :: tail := by
  unfold orchestration_trace
  simp only [h, Option.isSome_none, Bool.false_eq_true, ite_false]
  set od := t.trace.orchestrationTrace.getD emptyOrch with hod
  set st1 := startSpan st (orchKey tri t) "agent_orchestration"
    (orchCreateAttrs aid (od.traceId.getD "")) with hst1
  set sid := (regLookup st1.activeSpans (orchKey tri t)).getD 0 with hsid
  set st2 := modelHandlers st1 sid od.modelInvocationInput od.modelInvocationOutput with hst2
  have hsig2 : spanSig st2 = spanSig st ++ [(st.nextSid, orchKey tri t, "agent_orchestration")] := by
    rw [hst2, spanSig_modelHandlers, hst1, spanSig_startSpan]
  rcases hinv : od.invocationInput with _ | inv
  · refine ⟨[], ?_⟩
    simp only [spanSig_orchObservation]
    simpa using hsig2
  · rcases toolInputStep_cases st2 (orchKey tri t) inv with hcase | ⟨nm, ag, hcase⟩
    · refine ⟨[], ?_⟩
      simp only [spanSig_orchObservation, hcase]
      simpa using hsig2
    · refine ⟨[(st2.nextSid, orchKey tri t ++ "_tool_" ++ nm, "tool_execution_" ++ nm)], ?_⟩
      simp only [spanSig_orchObservation, hcase, spanSig_startSpan, hsig2]
      simp

/-- C1 (amended): closing is terminal for the span handle but not for
the key.  Whenever a routing or orchestration event arrives whose
correlation key is not registered — which after a close is exactly the
state the registry is in — a fresh span is created under that key (the
event is not dropped and no diagnostic is issued); the closed span
handle itself is never mutated, since attribute writes to an ended span
are discarded. -/
theorem c1_amended_key_reopened :
    (∀ (st : TraceState) (tri aid : String) (t : TraceEvent),
        regLookup st.activeSpans (routingKey tri t) = none →
        spanSig (routing_trace st tri aid t)
          = spanSig st ++ [(st.nextSid, routingKey tri t, "agent_routing")]) ∧
    (∀ (st : TraceState) (tri aid : String) (t : TraceEvent),
        regLookup st.activeSpans (orchKey tri t) = none →
        ∃ tail, spanSig (orchestration_trace st tri aid t)
          = spanSig st ++ (st.nextSid, orchKey tri t, "agent_orchestration") :: tail) ∧
    (∀ (st : TraceState) (i : Nat) (k : String) (v : JValue),
        (∀ sp ∈ st.spans, sp.sid = i → sp.ended = true) → setAttr st i k v = st) := by
  refine ⟨routing_creates, orch_creates, ?_⟩
  intro st i k v h
  unfold setAttr
  have hmap : st.spans.map (fun sp =>
      if sp.sid == i && !sp.ended then { sp with attrs := sp.attrs ++ [(k, v)] } else sp)
      = st.spans := by
    conv_rhs => rw [← List.map_id st.spans]
    apply List.map_eq_map_iff.mpr
    intro sp hsp
    by_cases hsid : sp.sid = i
    · simp [hsid, h sp hsp hsid]
    · simp [hsid]
  rw [hmap]

/-- Closed instance of `c1_amended_key_reopened`: the unregistered key
of `c1LateEvent` gets a fresh span. -/
theorem c1_amended_witness :
    spanSig (routing_trace initState "A_S" "A" c1LateEvent)
      = spanSig initState ++ [(0, "A_S_routing_t1", "agent_routing")] :=
  c1_amended_key_reopened.1 initState "A_S" "A" c1LateEvent rfl

/-! ## C9: getOrCreate is idempotent while the span is Open -/

/-- C9: while a correlation key is registered (its span Open), a further
event deriving the same key with no intervening close (no
final-response) creates no span at all on the routing path, and on the
orchestration path creates no span under that key (at most a tool child
under a strictly longer key); in both cases the registry still maps the
key to the same handle afterwards — the existing span is reused. -/
theorem c9_idempotent_getOrCreate :
    (∀ (st : TraceState) (tri aid : String) (t : TraceEvent) (s0 : Nat),
        regLookup st.activeSpans (routingKey tri t) = some s0 →
        routingHasFinal t = false →
        spanSig (routing_trace st tri aid t) = spanSig st ∧
        regLookup (routing_trace st tri aid t).activeSpans (routingKey tri t) = some s0) ∧
    (∀ (st : TraceState) (tri aid : String) (t : TraceEvent) (s0 : Nat),
        regLookup st.activeSpans (orchKey tri t) = some s0 →
        orchHasFinal t = false →
        (∃ tail, spanSig (orchestration_trace st tri aid t) = spanSig st ++ tail ∧
            ∀ x ∈ tail, x.2.1 ≠ orchKey tri t) ∧
        regLookup (orchestration_trace st tri aid t).activeSpans (orchKey tri t) = some s0) := by
  constructor
  · intro st tri aid t s0 h hfin
    have hfin' : match (t.trace.routingClassifierTrace.getD emptyRouting).observation with
        | some obs => obs.finalResponse = none
        | none => True := by
      unfold routingHasFinal at hfin
      cases ho : (t.trace.routingClassifierTrace.getD emptyRouting).observation with
      | none => trivial
      | some obs =>
        rw [ho] at hfin
        simpa using hfin
    constructor
    · simp only [routing_trace, h, Option.isSome_some, ite_true,
        spanSig_routingObservation, spanSig_modelHandlers]
    · simp only [routing_trace, h, Option.isSome_some, ite_true]
      rw [routingObservation_activeSpans_noFinal _ _ _ _ hfin', modelHandlers_activeSpans]
      exact h
  · intro st tri aid t s0 h hfin
    have hfin' : match (t.trace.orchestrationTrace.getD emptyOrch).observation with
        | some obs => obs.finalResponse = none
        | none => True := by
      unfold orchHasFinal at hfin
      cases ho : (t.trace.orchestrationTrace.getD emptyOrch).observation with
      | none => trivial
      | some obs =>
        rw [ho] at hfin
        simpa using hfin
    simp only [orchestration_trace, h, Option.isSome_some, ite_true, Option.getD_some]
    set od := t.trace.orchestrationTrace.getD emptyOrch with hod
    set st2 := modelHandlers st s0 od.modelInvocationInput od.modelInvocationOutput with hst2
    have hreg2 : st2.activeSpans = st.activeSpans := modelHandlers_activeSpans _ _ _ _
    have hsig2 : spanSig st2 = spanSig st := spanSig_modelHandlers _ _ _ _
    split
    next inv heq =>
      rcases toolInputStep_cases st2 (orchKey tri t) inv with hcase | ⟨nm, ag, hcase⟩
      · constructor
        · refine ⟨[], ?_, by simp⟩
          rw [spanSig_orchObservation, hcase, hsig2, List.append_nil]
        · rw [orchObservation_lookup_parent_noFinal _ _ _ _ hfin', hcase, hreg2]
          exact h
      · constructor
        · refine ⟨[(st2.nextSid, orchKey tri t ++ "_tool_" ++ nm, "tool_execution_" ++ nm)],
            ?_, ?_⟩
          · rw [spanSig_orchObservation, hcase, spanSig_startSpan, hsig2]
          · intro x hx
            have hx2 := List.mem_singleton.mp hx
            subst hx2
            exact tool_key_ne_parent _ _
        · rw [orchObservation_lookup_parent_noFinal _ _ _ _ hfin', hcase]
          show regLookup (st2.activeSpans ++ [(orchKey tri t ++ "_tool_" ++ nm, st2.nextSid)])
            (orchKey tri t) = some s0
          apply regLookup_append_of_some
          rw [hreg2]
          exact h
    next heq =>
      constructor
      · refine ⟨[], ?_, by simp⟩
        rw [spanSig_orchObservation, hsig2, List.append_nil]
      · rw [orchObservation_lookup_parent_noFinal _ _ _ _ hfin', hreg2]
        exact h

/-- A state holding the Open routing span of `c1LateEvent`'s key. -/
def stReuse : TraceState := routing_trace initState "A_S" "A" c1LateEvent

/-- Closed instance of `c9_idempotent_getOrCreate`: replaying the same
routing event on a state already holding its Open span creates nothing
and keeps the registry entry. -/
theorem c9_witness :
    spanSig (routing_trace stReuse "A_S" "A" c1LateEvent) = spanSig stReuse ∧
    regLookup (routing_trace stReuse "A_S" "A" c1LateEvent).activeSpans "A_S_routing_t1"
      = some 0 :=
  c9_idempotent_getOrCreate.1 stReuse "A_S" "A" c1LateEvent 0 rfl rfl

/-! ## C2: tool-result correlation -/

theorem parent_not_tool (K : String) : startsWithS K (K ++ "_tool_") = false := by
  by_contra h
  rw [Bool.not_eq_false] at h
  exact ne_of_startsWith_tool K K h rfl

/-- The orchestration correlation key `process_trace` derives for the
events built by `mkOrchEvent`. -/
def orchRunKey (aid sess tid : String) : String :=
  aid ++ "_" ++ sess ++ "_orchestration_" ++ tid

/-- C2 counterexample.  Two tool-invocation-inputs (`alpha` then `beta`)
leave two open children under one orchestration step; the single
tool-invocation-output is then recorded on and closes `alpha` — the
earliest-opened child — while `beta`, the most-recently-opened child,
stays open and carries no output attribute, contradicting the claimed
most-recently-opened resolution. -/
theorem c2_counterexample :
    c2Run.spans.map (fun sp => (sp.name, sp.ended))
      = [("agent_orchestration", false), ("tool_execution_alpha", true),
         ("tool_execution_beta", false)] ∧
    (c2Run.spans.map Span.attrs).map (fun l => l.map Prod.fst)
      = [["langsmith.span.kind", "gen_ai.operation.name", "gen_ai.system", "gen_ai.agent.id",
          "gen_ai.trace_id", "gen_ai.component"],
         ["langsmith.span.kind", "gen_ai.tool.name", "gen_ai.action_group", "gen_ai.tool.output"],
         ["langsmith.span.kind", "gen_ai.tool.name", "gen_ai.action_group"]] :=
  ⟨rfl, rfl⟩

theorem toolResultStep_none (st : TraceState) (span_id : String)
    (tr : ActionGroupInvocationOutput)
    (h : st.activeSpans.find? (fun e => startsWithS e.1 (span_id ++ "_tool_")) = none) :
    toolResultStep st span_id tr = st := by
  unfold toolResultStep
  rw [h]

theorem toolResultStep_some (st : TraceState) (span_id : String)
    (tr : ActionGroupInvocationOutput) (hit : String × Nat)
    (h : st.activeSpans.find? (fun e => startsWithS e.1 (span_id ++ "_tool_")) = some hit) :
    (toolResultStep st span_id tr).activeSpans = regDelete st.activeSpans hit.1 ∧
    (toolResultStep st span_id tr).nextSid = st.nextSid ∧
    ∀ sp ∈ st.spans, sp.sid = hit.2 → sp.ended = false →
      { sp with
        attrs := sp.attrs ++ [("gen_ai.tool.output", JValue.str (tr.text.getD ""))],
        ended := true } ∈ (toolResultStep st span_id tr).spans := by
  unfold toolResultStep
  rw [h]
  refine ⟨rfl, rfl, ?_⟩
  intro sp hsp hsid hopen
  show _ ∈ (endSpan (setAttr st hit.2 "gen_ai.tool.output" (.str (tr.text.getD ""))) hit.2).spans
  simp only [endSpan, setAttr, List.map_map]
  refine List.mem_map.mpr ⟨sp, hsp, ?_⟩
  simp [Function.comp, hsid, hopen]

theorem runEvents_cons (st : TraceState) (e : TraceEvent) (evs : List TraceEvent) :
    runEvents st (e :: evs) = runEvents (process_trace st e) evs := rfl

theorem runEvents_append (st : TraceState) (l1 l2 : List TraceEvent) :
    runEvents st (l1 ++ l2) = runEvents (runEvents st l1) l2 := by
  simp [runEvents, List.foldl_append]

theorem mkOrch_routingTrace (aid sess tid : String) (mi : Option ModelInvocationInput)
    (mo : Option ModelInvocationOutput) (r : Option Rationale) (inv : Option InvocationInput)
    (obs : Option Observation) :
    (mkOrchEvent aid sess tid mi mo r inv obs).trace.routingClassifierTrace = none := rfl

theorem mkOrch_orchTrace (aid sess tid : String) (mi : Option ModelInvocationInput)
    (mo : Option ModelInvocationOutput) (r : Option Rationale) (inv : Option InvocationInput)
    (obs : Option Observation) :
    (mkOrchEvent aid sess tid mi mo r inv obs).trace.orchestrationTrace
      = some ⟨some tid, mi, mo, r, inv, obs⟩ := rfl

theorem mkOrch_agentId (aid sess tid : String) (mi : Option ModelInvocationInput)
    (mo : Option ModelInvocationOutput) (r : Option Rationale) (inv : Option InvocationInput)
    (obs : Option Observation) :
    (mkOrchEvent aid sess tid mi mo r inv obs).agentId = aid := rfl

theorem mkOrch_sessionId (aid sess tid : String) (mi : Option ModelInvocationInput)
    (mo : Option ModelInvocationOutput) (r : Option Rationale) (inv : Option InvocationInput)
    (obs : Option Observation) :
    (mkOrchEvent aid sess tid mi mo r inv obs).sessionId = some sess := rfl

theorem orchKey_mkOrchEvent (aid sess tid : String) (mi : Option ModelInvocationInput)
    (mo : Option ModelInvocationOutput) (r : Option Rationale) (inv : Option InvocationInput)
    (obs : Option Observation) :
    orchKey (aid ++ "_" ++ sess) (mkOrchEvent aid sess tid mi mo r inv obs)
      = orchRunKey aid sess tid := rfl

theorem scenario_entry (aid sess tid X ag : String) :
    process_trace initState (toolInEvent aid sess tid X ag)
      = { activeSpans := [(orchRunKey aid sess tid, 0),
                          (orchRunKey aid sess tid ++ "_tool_" ++ X, 1)],
          spans := [⟨0, orchRunKey aid sess tid, "agent_orchestration",
                     orchCreateAttrs aid tid, false⟩,
                    ⟨1, orchRunKey aid sess tid ++ "_tool_" ++ X, "tool_execution_" ++ X,
                     toolCreateAttrs X ag, false⟩],
          nextSid := 2 } := by
  have hne : ¬ orchRunKey aid sess tid = orchRunKey aid sess tid ++ "_tool_" ++ X :=
    fun hh => tool_key_ne_parent _ _ hh.symm
  simp [process_trace, toolInEvent, mkOrch_routingTrace, mkOrch_orchTrace, mkOrch_agentId,
    mkOrch_sessionId, orchKey_mkOrchEvent, orchestration_trace, initState, regLookup,
    modelHandlers, toolInputStep, startSpan, orchObservation, hne]

theorem scenario_mid (aid sess tid X ag : String) (st : TraceState)
    (m : Option ModelInvocationInput × Option ModelInvocationOutput × Option Rationale)
    (hreg : st.activeSpans = [(orchRunKey aid sess tid, 0),
                              (orchRunKey aid sess tid ++ "_tool_" ++ X, 1)])
    (hnext : st.nextSid = 2)
    (hspans : ∃ a0, st.spans = [⟨0, orchRunKey aid sess tid, "agent_orchestration", a0, false⟩,
        ⟨1, orchRunKey aid sess tid ++ "_tool_" ++ X, "tool_execution_" ++ X,
         toolCreateAttrs X ag, false⟩]) :
    (process_trace st (midEvent aid sess tid m)).activeSpans
        = [(orchRunKey aid sess tid, 0), (orchRunKey aid sess tid ++ "_tool_" ++ X, 1)] ∧
    (process_trace st (midEvent aid sess tid m)).nextSid = 2 ∧
    ∃ a0, (process_trace st (midEvent aid sess tid m)).spans
        = [⟨0, orchRunKey aid sess tid, "agent_orchestration", a0, false⟩,
           ⟨1, orchRunKey aid sess tid ++ "_tool_" ++ X, "tool_execution_" ++ X,
            toolCreateAttrs X ag, false⟩] := by
  obtain ⟨a0, hsp⟩ := hspans
  have hkey : regLookup st.activeSpans (orchRunKey aid sess tid) = some 0 := by
    rw [hreg]
    simp [regLookup]
  have hstep : process_trace st (midEvent aid sess tid m)
      = modelHandlers st 0 m.1 m.2.1 := by
    simp [process_trace, midEvent, mkOrch_routingTrace, mkOrch_orchTrace, mkOrch_agentId,
      mkOrch_sessionId, orchKey_mkOrchEvent, orchestration_trace, orchObservation, hkey]
  rw [hstep, modelHandlers_eq_setAttrs]
  refine ⟨by rw [setAttrs_activeSpans, hreg], by rw [setAttrs_nextSid, hnext],
    ⟨a0 ++ modelHandlersAttrs m.1 m.2.1, ?_⟩⟩
  rw [setAttrs_spans, hsp]
  simp

theorem scenario_exit (aid sess tid X ag res : String) (st : TraceState)
    (hreg : st.activeSpans = [(orchRunKey aid sess tid, 0),
                              (orchRunKey aid sess tid ++ "_tool_" ++ X, 1)])
    (hnext : st.nextSid = 2)
    (hspans : ∃ a0, st.spans = [⟨0, orchRunKey aid sess tid, "agent_orchestration", a0, false⟩,
        ⟨1, orchRunKey aid sess tid ++ "_tool_" ++ X, "tool_execution_" ++ X,
         toolCreateAttrs X ag, false⟩]) :
    ∃ a0, process_trace st (toolOutEvent aid sess tid res)
      = { activeSpans := [(orchRunKey aid sess tid, 0)],
          spans := [⟨0, orchRunKey aid sess tid, "agent_orchestration", a0, false⟩,
                    ⟨1, orchRunKey aid sess tid ++ "_tool_" ++ X, "tool_execution_" ++ X,
                     toolCreateAttrs X ag ++ [("gen_ai.tool.output", JValue.str res)], true⟩],
          nextSid := 2 } := by
  obtain ⟨a0, hsp⟩ := hspans
  have hkey : regLookup st.activeSpans (orchRunKey aid sess tid) = some 0 := by
    rw [hreg]
    simp [regLookup]
  have hne : ¬ (orchRunKey aid sess tid ++ "_tool_" ++ X) = orchRunKey aid sess tid :=
    tool_key_ne_parent _ _
  have hne2 : ¬ orchRunKey aid sess tid = orchRunKey aid sess tid ++ "_tool_" ++ X :=
    fun hh => hne hh.symm
  refine ⟨a0, ?_⟩
  simp [process_trace, toolOutEvent, mkOrch_routingTrace, mkOrch_orchTrace, mkOrch_agentId,
    mkOrch_sessionId, orchKey_mkOrchEvent, orchestration_trace, orchObservation,
    toolResultStep, modelHandlers_none, hkey, hreg, hnext, hsp, List.find?,
    parent_not_tool, startsWith_tool_key, regLookup, hne, hne2, setAttr, endSpan, regDelete]

theorem c2_scenario (aid sess tid X ag res : String)
    (mids : List (Option ModelInvocationInput × Option ModelInvocationOutput × Option Rationale)) :
    ∃ a0, runEvents initState
        (toolInEvent aid sess tid X ag
          :: (mids.map (midEvent aid sess tid) ++ [toolOutEvent aid sess tid res]))
      = { activeSpans := [(orchRunKey aid sess tid, 0)],
          spans := [⟨0, orchRunKey aid sess tid, "agent_orchestration", a0, false⟩,
                    ⟨1, orchRunKey aid sess tid ++ "_tool_" ++ X, "tool_execution_" ++ X,
                     toolCreateAttrs X ag ++ [("gen_ai.tool.output", JValue.str res)], true⟩],
          nextSid := 2 } := by
  have hmid : ∀ (ms : List (Option ModelInvocationInput × Option ModelInvocationOutput ×
        Option Rationale)) (st : TraceState),
      st.activeSpans = [(orchRunKey aid sess tid, 0),
                        (orchRunKey aid sess tid ++ "_tool_" ++ X, 1)] →
      st.nextSid = 2 →
      (∃ a0, st.spans = [⟨0, orchRunKey aid sess tid, "agent_orchestration", a0, false⟩,
          ⟨1, orchRunKey aid sess tid ++ "_tool_" ++ X, "tool_execution_" ++ X,
           toolCreateAttrs X ag, false⟩]) →
      (runEvents st (ms.map (midEvent aid sess tid))).activeSpans
          = [(orchRunKey aid sess tid, 0), (orchRunKey aid sess tid ++ "_tool_" ++ X, 1)] ∧
      (runEvents st (ms.map (midEvent aid sess tid))).nextSid = 2 ∧
      ∃ a0, (runEvents st (ms.map (midEvent aid sess tid))).spans
          = [⟨0, orchRunKey aid sess tid, "agent_orchestration", a0, false⟩,
             ⟨1, orchRunKey aid sess tid ++ "_tool_" ++ X, "tool_execution_" ++ X,
              toolCreateAttrs X ag, false⟩] := by
    intro ms
    induction ms with
    | nil =>
      intro st h1 h2 h3
      exact ⟨h1, h2, h3⟩
    | cons m rest ih =>
      intro st h1 h2 h3
      rw [List.map_cons, runEvents_cons]
      obtain ⟨g1, g2, g3⟩ := scenario_mid aid sess tid X ag st m h1 h2 h3
      exact ih _ g1 g2 g3
  rw [runEvents_cons, runEvents_append]
  have hentry := scenario_entry aid sess tid X ag
  obtain ⟨g1, g2, g3⟩ := hmid mids (process_trace initState (toolInEvent aid sess tid X ag))
    (by rw [hentry]) (by rw [hentry]) ⟨orchCreateAttrs aid tid, by rw [hentry]⟩
  have hexit := scenario_exit aid sess tid X ag res
    (runEvents (process_trace initState (toolInEvent aid sess tid X ag))
      (mids.map (midEvent aid sess tid))) g1 g2 g3
  obtain ⟨a0, hfin⟩ := hexit
  exact ⟨a0, by rw [show runEvents _ [toolOutEvent aid sess tid res]
    = process_trace _ (toolOutEvent aid sess tid res) from rfl, hfin]⟩

/-- C2 (amended): when a tool-invocation-output arrives, the correlator
scans the registry in insertion order and resolves the FIRST — i.e. the
earliest-opened, not the most-recently-opened — open tool-child span
whose key extends the parent orchestration key's tool prefix; it records
the tool's textual result on exactly that child and closes it (other
children are untouched).  If no matching open child exists, the result
is discarded and the state is unchanged (processing continues, not an
error).  In particular, for a tool-invocation-input for tool `X`
followed later — with arbitrary interleaved model-invocation/rationale
events of the same orchestration step — by exactly one
tool-invocation-output, while no other tool child of that step is open,
the resulting closed span for `X` carries both the action-group name
from the input and the result text from the output, and the parent span
stays open. -/
theorem c2_amended_tool_result :
    (∀ (st : TraceState) (span_id : String) (tr : ActionGroupInvocationOutput),
        st.activeSpans.find? (fun e => startsWithS e.1 (span_id ++ "_tool_")) = none →
        toolResultStep st span_id tr = st) ∧
    (∀ (st : TraceState) (span_id : String) (tr : ActionGroupInvocationOutput)
        (hit : String × Nat),
        st.activeSpans.find? (fun e => startsWithS e.1 (span_id ++ "_tool_")) = some hit →
        (toolResultStep st span_id tr).activeSpans = regDelete st.activeSpans hit.1 ∧
        (toolResultStep st span_id tr).nextSid = st.nextSid ∧
        ∀ sp ∈ st.spans, sp.sid = hit.2 → sp.ended = false →
          { sp with
            attrs := sp.attrs ++ [("gen_ai.tool.output", JValue.str (tr.text.getD ""))],
            ended := true } ∈ (toolResultStep st span_id tr).spans) ∧
    (∀ (aid sess tid X ag res : String)
        (mids : List (Option ModelInvocationInput × Option ModelInvocationOutput ×
          Option Rationale)),
        ∃ a0, runEvents initState
            (toolInEvent aid sess tid X ag
              :: (mids.map (midEvent aid sess tid) ++ [toolOutEvent aid sess tid res]))
          = { activeSpans := [(orchRunKey aid sess tid, 0)],
              spans := [⟨0, orchRunKey aid sess tid, "agent_orchestration", a0, false⟩,
                        ⟨1, orchRunKey aid sess tid ++ "_tool_" ++ X, "tool_execution_" ++ X,
                         toolCreateAttrs X ag ++ [("gen_ai.tool.output", JValue.str res)],
                         true⟩],
              nextSid := 2 }) :=
  ⟨toolResultStep_none, toolResultStep_some, c2_scenario⟩

/-- Closed instance of `c2_amended_tool_result`: the `X`-scenario with
no interleaved events, at concrete strings. -/
theorem c2_witness :
    ∃ a0, runEvents initState
        [toolInEvent "A" "S" "t9" "alpha" "agA", toolOutEvent "A" "S" "t9" "res"]
      = { activeSpans := [(orchRunKey "A" "S" "t9", 0)],
          spans := [⟨0, orchRunKey "A" "S" "t9", "agent_orchestration", a0, false⟩,
                    ⟨1, orchRunKey "A" "S" "t9" ++ "_tool_" ++ "alpha",
                     "tool_execution_" ++ "alpha",
                     toolCreateAttrs "alpha" "agA" ++ [("gen_ai.tool.output", JValue.str "res")],
                     true⟩],
          nextSid := 2 } :=
  c2_amended_tool_result.2.2 "A" "S" "t9" "alpha" "agA" "res" []

/-! ## C5: the registry well-formedness invariant -/

/-- The registry invariant: keys are distinct, handles are distinct,
every registered handle was allocated (below `nextSid`), and every key
present maps to an Open span. -/
def WF (st : TraceState) : Prop :=
  (st.activeSpans.map Prod.fst).Nodup ∧
  (st.activeSpans.map Prod.snd).Nodup ∧
  (∀ e ∈ st.activeSpans, e.2 < st.nextSid) ∧
  (∀ e ∈ st.activeSpans, ∃ sp ∈ st.spans, sp.sid = e.2 ∧ sp.ended = false)

/-- `WF` strengthened with a lower bound on every registered handle
(used to show invocation 2 never sees invocation 1's spans). -/
def Inv (n : Nat) (st : TraceState) : Prop :=
  WF st ∧ (∀ e ∈ st.activeSpans, n ≤ e.2) ∧ n ≤ st.nextSid

theorem mem_of_regLookup_some (reg : List (String × Nat)) (k : String) (s : Nat)
    (h : regLookup reg k = some s) : (k, s) ∈ reg := by
  induction reg with
  | nil => cases h
  | cons e rest ih =>
    by_cases he : e.1 = k
    · simp only [regLookup, he, if_pos] at h
      have hs : e.2 = s := Option.some.inj h
      exact List.mem_cons.mpr (Or.inl (Prod.ext_iff.mpr ⟨he.symm, hs.symm⟩))
    · simp only [regLookup, he, ite_false] at h
      exact List.mem_cons_of_mem e (ih h)

theorem regDelete_sublist (reg : List (String × Nat)) (k : String) :
    List.Sublist (regDelete reg k) reg := by
  induction reg with
  | nil => exact List.Sublist.refl []
  | cons e rest ih =>
    by_cases he : e.1 = k
    · simp only [regDelete, he, if_pos]
      exact List.Sublist.cons e ih
    · simp only [regDelete, he, ite_false]
      exact List.Sublist.cons₂ e ih

theorem mem_regDelete (reg : List (String × Nat)) (k : String) (e : String × Nat)
    (h : e ∈ regDelete reg k) : e ∈ reg ∧ ¬ e.1 = k := by
  induction reg with
  | nil => cases h
  | cons x rest ih =>
    by_cases hx : x.1 = k
    · simp only [regDelete, hx, if_pos] at h
      obtain ⟨h1, h2⟩ := ih h
      exact ⟨List.mem_cons_of_mem x h1, h2⟩
    · simp only [regDelete, hx, ite_false] at h
      rcases List.mem_cons.mp h with rfl | hmem
      · exact ⟨List.mem_cons_self _ _, hx⟩
      · obtain ⟨h1, h2⟩ := ih hmem
        exact ⟨List.mem_cons_of_mem x h1, h2⟩

theorem Inv_setAttr (n : Nat) (st : TraceState) (i : Nat) (k : String) (v : JValue)
    (h : Inv n st) : Inv n (setAttr st i k v) := by
  obtain ⟨⟨w1, w2, w3, w4⟩, f1, f2⟩ := h
  refine ⟨⟨?_, ?_, ?_, ?_⟩, ?_, ?_⟩ <;>
    simp only [setAttr_activeSpans, setAttr_nextSid]
  · exact w1
  · exact w2
  · exact w3
  · intro e he
    obtain ⟨sp, hsp, hs1, hs2⟩ := w4 e he
    refine ⟨if sp.sid == i && !sp.ended then { sp with attrs := sp.attrs ++ [(k, v)] }
        else sp, List.mem_map_of_mem _ hsp, ?_, ?_⟩
    · by_cases hc : (sp.sid == i && !sp.ended) = true
      · simp only [hc]
        simp [hs1]
      · rw [Bool.not_eq_true] at hc
        simp only [hc]
        simp [hs1]
    · by_cases hc : (sp.sid == i && !sp.ended) = true
      · simp only [hc]
        simp [hs2]
      · rw [Bool.not_eq_true] at hc
        simp only [hc]
        simp [hs2]
  · exact f1
  · exact f2

theorem Inv_setAttrs (n : Nat) (l : List (String × JValue)) :
    ∀ (st : TraceState) (i : Nat), Inv n st → Inv n (setAttrs st i l) := by
  induction l with
  | nil => intro st i h; exact h
  | cons kv rest ih =>
    intro st i h
    obtain ⟨k, v⟩ := kv
    exact ih _ _ (Inv_setAttr n st i k v h)

theorem Inv_modelHandlers (n : Nat) (st : TraceState) (sid : Nat)
    (mi : Option ModelInvocationInput) (mo : Option ModelInvocationOutput)
    (h : Inv n st) : Inv n (modelHandlers st sid mi mo) := by
  rw [modelHandlers_eq_setAttrs]
  exact Inv_setAttrs n _ st sid h

theorem Inv_startSpan (n : Nat) (st : TraceState) (key name : String)
    (attrs : List (String × JValue)) (h : Inv n st)
    (hk : regLookup st.activeSpans key = none) :
    Inv n (startSpan st key name attrs) := by
  obtain ⟨⟨w1, w2, w3, w4⟩, f1, f2⟩ := h
  have hknot : key ∉ st.activeSpans.map Prod.fst := by
    intro hmem
    obtain ⟨e, he, heq⟩ := List.mem_map.mp hmem
    exact forall_of_regLookup_none _ _ hk e he heq
  have hsidnot : st.nextSid ∉ st.activeSpans.map Prod.snd := by
    intro hmem
    obtain ⟨e, he, heq⟩ := List.mem_map.mp hmem
    exact absurd (heq ▸ w3 e he) (Nat.lt_irrefl _)
  refine ⟨⟨?_, ?_, ?_, ?_⟩, ?_, ?_⟩
  · simp only [startSpan, List.map_append]
    simp [List.nodup_append, w1, hknot]
  · simp only [startSpan, List.map_append]
    simp [List.nodup_append, w2, hsidnot]
  · intro e he
    simp only [startSpan] at he ⊢
    rcases List.mem_append.mp he with hold | hnew
    · exact Nat.lt_succ_of_lt (w3 e hold)
    · rcases List.mem_singleton.mp hnew with rfl
      exact Nat.lt_succ_self _
  · intro e he
    simp only [startSpan] at he ⊢
    rcases List.mem_append.mp he with hold | hnew
    · obtain ⟨sp, hsp, hs1, hs2⟩ := w4 e hold
      exact ⟨sp, List.mem_append_left _ hsp, hs1, hs2⟩
    · rcases List.mem_singleton.mp hnew with rfl
      exact ⟨⟨st.nextSid, key, name, attrs, false⟩,
        List.mem_append_right _ (List.mem_singleton.mpr rfl), rfl, rfl⟩
  · intro e he
    simp only [startSpan] at he
    rcases List.mem_append.mp he with hold | hnew
    · exact f1 e hold
    · rcases List.mem_singleton.mp hnew with rfl
      exact f2
  · exact Nat.le_succ_of_le f2

theorem Inv_endDelete (n : Nat) (st : TraceState) (k : String) (s : Nat)
    (h : Inv n st) (hmem : (k, s) ∈ st.activeSpans) :
    Inv n { endSpan st s with activeSpans := regDelete st.activeSpans k } := by
  obtain ⟨⟨w1, w2, w3, w4⟩, f1, f2⟩ := h
  have hsub := regDelete_sublist st.activeSpans k
  refine ⟨⟨?_, ?_, ?_, ?_⟩, ?_, ?_⟩
  · exact List.Sublist.nodup (List.Sublist.map Prod.fst hsub) w1
  · exact List.Sublist.nodup (List.Sublist.map Prod.snd hsub) w2
  · intro e he
    obtain ⟨hin, _⟩ := mem_regDelete _ _ _ he
    exact w3 e hin
  · intro e he
    obtain ⟨hin, hne⟩ := mem_regDelete _ _ _ he
    obtain ⟨sp, hsp, hs1, hs2⟩ := w4 e hin
    have hes : ¬ e.2 = s := by
      intro heq
      have := List.inj_on_of_nodup_map w2 hin hmem (by simpa using heq)
      exact hne (congrArg Prod.fst this)
    have hc : (sp.sid == s) = false := by
      rw [hs1]
      simp only [beq_eq_false_iff_ne, ne_eq]
      exact hes
    refine ⟨if sp.sid == s then { sp with ended := true } else sp,
      List.mem_map_of_mem _ hsp, ?_, ?_⟩
    · simp only [hc]
      simp [hs1]
    · simp only [hc]
      simp [hs2]
  · intro e he
    obtain ⟨hin, _⟩ := mem_regDelete _ _ _ he
    exact f1 e hin
  · exact f2

theorem Inv_closeIfActive (n : Nat) (st : TraceState) (sid : Nat) (span_id : String)
    (h : Inv n st)
    (hsid : ∀ s, regLookup st.activeSpans span_id = some s → s = sid) :
    Inv n (closeIfActive st sid span_id) := by
  unfold closeIfActive
  by_cases hl : (regLookup st.activeSpans span_id).isSome = true
  · rw [if_pos hl]
    obtain ⟨s, hs⟩ := Option.isSome_iff_exists.mp hl
    have heq := hsid s hs
    subst heq
    exact Inv_endDelete n st span_id s h (mem_of_regLookup_some _ _ _ hs)
  · rw [if_neg hl]
    exact h

theorem Inv_finalResponseStep (n : Nat) (st : TraceState) (sid : Nat) (span_id role : String)
    (fr : FinalResponse) (h : Inv n st)
    (hsid : ∀ s, regLookup st.activeSpans span_id = some s → s = sid) :
    Inv n (finalResponseStep st sid span_id role fr) := by
  unfold finalResponseStep
  apply Inv_closeIfActive
  · exact Inv_setAttr _ _ _ _ _ (Inv_setAttr _ _ _ _ _ (Inv_setAttr _ _ _ _ _ h))
  · intro s hs
    rw [setAttr_activeSpans, setAttr_activeSpans, setAttr_activeSpans] at hs
    exact hsid s hs

theorem Inv_collaboratorStep (n : Nat) (st : TraceState) (sid : Nat)
    (acd : AgentCollaboratorInvocationOutput) (h : Inv n st) :
    Inv n (collaboratorStep st sid acd) := by
  unfold collaboratorStep
  exact Inv_setAttr _ _ _ _ _ (Inv_setAttr _ _ _ _ _ h)

theorem Inv_routingObservation (n : Nat) (st : TraceState) (sid : Nat) (span_id : String)
    (obsOpt : Option Observation) (h : Inv n st)
    (hsid : ∀ s, regLookup st.activeSpans span_id = some s → s = sid) :
    Inv n (routingObservation st sid span_id obsOpt) := by
  unfold routingObservation
  cases obsOpt with
  | none => exact h
  | some obs =>
    have h1 : Inv n (match obs.finalResponse with
        | some fr => finalResponseStep st sid span_id "agent" fr
        | none => st) := by
      cases hf : obs.finalResponse with
      | none => exact h
      | some fr => exact Inv_finalResponseStep n st sid span_id "agent" fr h hsid
    have key : ∀ st' : TraceState, Inv n st' →
        Inv n (match obs.agentCollaboratorInvocationOutput with
          | some acd => collaboratorStep st' sid acd
          | none => st') := by
      intro st' h'
      cases ha : obs.agentCollaboratorInvocationOutput with
      | none => exact h'
      | some acd => exact Inv_collaboratorStep n st' sid acd h'
    exact key _ h1

theorem Inv_toolInputStep (n : Nat) (st : TraceState) (span_id : String)
    (inv : InvocationInput) (h : Inv n st) :
    Inv n (toolInputStep st span_id inv) := by
  simp only [toolInputStep]
  by_cases hl : (regLookup st.activeSpans
      (span_id ++ "_tool_" ++
        ((inv.actionGroupInvocationInput.getD ⟨none, none⟩).function.getD ""))).isSome = true
  · rw [if_pos hl]
    exact h
  · rw [if_neg hl]
    exact Inv_startSpan n st _ _ _ h (Option.not_isSome_iff_eq_none.mp hl)

theorem Inv_toolResultStep (n : Nat) (st : TraceState) (span_id : String)
    (tr : ActionGroupInvocationOutput) (h : Inv n st) :
    Inv n (toolResultStep st span_id tr) := by
  unfold toolResultStep
  cases hf : st.activeSpans.find? (fun e => startsWithS e.1 (span_id ++ "_tool_")) with
  | none => exact h
  | some hit =>
    have h1 := Inv_setAttr n st hit.2 "gen_ai.tool.output" (.str (tr.text.getD "")) h
    have hmem : (hit.1, hit.2) ∈ (setAttr st hit.2 "gen_ai.tool.output"
        (.str (tr.text.getD ""))).activeSpans := by
      rw [setAttr_activeSpans]
      exact List.mem_of_find?_eq_some hf
    exact Inv_endDelete n _ hit.1 hit.2 h1 hmem

theorem Inv_orchObservation (n : Nat) (st : TraceState) (sid : Nat) (span_id : String)
    (obsOpt : Option Observation) (h : Inv n st)
    (hsid : ∀ s, regLookup st.activeSpans span_id = some s → s = sid) :
    Inv n (orchObservation st sid span_id obsOpt) := by
  unfold orchObservation
  cases obsOpt with
  | none => exact h
  | some obs =>
    have h1 : Inv n (match obs.actionGroupInvocationOutput with
        | some tr => toolResultStep st span_id tr
        | none => st) := by
      cases ht : obs.actionGroupInvocationOutput with
      | none => exact h
      | some tr => exact Inv_toolResultStep n st span_id tr h
    have hsid1 : ∀ s, regLookup (match obs.actionGroupInvocationOutput with
        | some tr => toolResultStep st span_id tr
        | none => st).activeSpans span_id = some s → s = sid := by
      cases ht : obs.actionGroupInvocationOutput with
      | none => exact hsid
      | some tr =>
        intro s hs
        rw [toolResultStep_lookup_parent] at hs
        exact hsid s hs
    have key : ∀ st' : TraceState, Inv n st' →
        (∀ s, regLookup st'.activeSpans span_id = some s → s = sid) →
        Inv n (match obs.finalResponse with
          | some fr => finalResponseStep st' sid span_id "assistant" fr
          | none => st') := by
      intro st' h' hsid'
      cases hfe : obs.finalResponse with
      | none => exact h'
      | some fr => exact Inv_finalResponseStep n st' sid span_id "assistant" fr h' hsid'
    exact key _ h1 hsid1

theorem Inv_routing_trace (n : Nat) (st : TraceState) (tri aid : String) (t : TraceEvent)
    (h : Inv n st) : Inv n (routing_trace st tri aid t) := by
  simp only [routing_trace]
  by_cases hl : (regLookup st.activeSpans (routingKey tri t)).isSome = true
  · rw [if_pos hl]
    obtain ⟨s0, hs0⟩ := Option.isSome_iff_exists.mp hl
    apply Inv_routingObservation
    · exact Inv_modelHandlers n st _ _ _ h
    · intro s hs
      rw [modelHandlers_activeSpans] at hs
      rw [hs0]
      simp only [Option.getD_some]
      exact Option.some.inj (hs.symm.trans hs0)
  · rw [if_neg hl]
    have hnone := Option.not_isSome_iff_eq_none.mp hl
    have hself : regLookup (startSpan st (routingKey tri t) "agent_routing"
        (routingCreateAttrs aid (routingKey tri t))).activeSpans (routingKey tri t)
        = some st.nextSid := regLookup_append_self _ _ _ hnone
    apply Inv_routingObservation
    · exact Inv_modelHandlers n _ _ _ _ (Inv_startSpan n st _ _ _ h hnone)
    · intro s hs
      rw [modelHandlers_activeSpans] at hs
      rw [hself]
      simp only [Option.getD_some]
      exact Option.some.inj (hs.symm.trans hself)

theorem Inv_orchestration_trace (n : Nat) (st : TraceState) (tri aid : String) (t : TraceEvent)
    (h : Inv n st) : Inv n (orchestration_trace st tri aid t) := by
  simp only [orchestration_trace]
  by_cases hl : (regLookup st.activeSpans (orchKey tri t)).isSome = true
  · rw [if_pos hl]
    obtain ⟨s0, hs0⟩ := Option.isSome_iff_exists.mp hl
    have hmh : Inv n (modelHandlers st ((regLookup st.activeSpans (orchKey tri t)).getD 0)
        (t.trace.orchestrationTrace.getD emptyOrch).modelInvocationInput
        (t.trace.orchestrationTrace.getD emptyOrch).modelInvocationOutput) :=
      Inv_modelHandlers n st _ _ _ h
    apply Inv_orchObservation
    · cases hinv : (t.trace.orchestrationTrace.getD emptyOrch).invocationInput with
      | none => exact hmh
      | some inv => exact Inv_toolInputStep n _ _ inv hmh
    · cases hinv : (t.trace.orchestrationTrace.getD emptyOrch).invocationInput with
      | none =>
        intro s hs
        rw [modelHandlers_activeSpans] at hs
        rw [hs0]
        simp only [Option.getD_some]
        exact Option.some.inj (hs.symm.trans hs0)
      | some inv =>
        intro s hs
        have hs2 : regLookup (toolInputStep (modelHandlers st
            ((regLookup st.activeSpans (orchKey tri t)).getD 0)
            (t.trace.orchestrationTrace.getD emptyOrch).modelInvocationInput
            (t.trace.orchestrationTrace.getD emptyOrch).modelInvocationOutput)
            (orchKey tri t) inv).activeSpans (orchKey tri t) = some s := hs
        rcases toolInputStep_cases (modelHandlers st
            ((regLookup st.activeSpans (orchKey tri t)).getD 0)
            (t.trace.orchestrationTrace.getD emptyOrch).modelInvocationInput
            (t.trace.orchestrationTrace.getD emptyOrch).modelInvocationOutput)
            (orchKey tri t) inv with hc | ⟨nm, ag, hc⟩
        · rw [hc, modelHandlers_activeSpans] at hs2
          rw [hs0]
          simp only [Option.getD_some]
          exact Option.some.inj (hs2.symm.trans hs0)
        · rw [hc] at hs2
          have hpres : regLookup (startSpan (modelHandlers st
              ((regLookup st.activeSpans (orchKey tri t)).getD 0)
              (t.trace.orchestrationTrace.getD emptyOrch).modelInvocationInput
              (t.trace.orchestrationTrace.getD emptyOrch).modelInvocationOutput)
              (orchKey tri t ++ "_tool_" ++ nm) ("tool_execution_" ++ nm)
              (toolCreateAttrs nm ag)).activeSpans (orchKey tri t) = some s0 := by
            apply regLookup_append_of_some
            rw [modelHandlers_activeSpans]
            exact hs0
          rw [hs0]
          simp only [Option.getD_some]
          exact Option.some.inj (hs2.symm.trans hpres)
  · rw [if_neg hl]
    have hnone := Option.not_isSome_iff_eq_none.mp hl
    have hself : regLookup (startSpan st (orchKey tri t) "agent_orchestration"
        (orchCreateAttrs aid ((t.trace.orchestrationTrace.getD emptyOrch).traceId.getD ""))).activeSpans
        (orchKey tri t) = some st.nextSid := regLookup_append_self _ _ _ hnone
    have hmh : Inv n (modelHandlers (startSpan st (orchKey tri t) "agent_orchestration"
        (orchCreateAttrs aid ((t.trace.orchestrationTrace.getD emptyOrch).traceId.getD "")))
        ((regLookup (startSpan st (orchKey tri t) "agent_orchestration"
          (orchCreateAttrs aid
            ((t.trace.orchestrationTrace.getD emptyOrch).traceId.getD ""))).activeSpans
            (orchKey tri t)).getD 0)
        (t.trace.orchestrationTrace.getD emptyOrch).modelInvocationInput
        (t.trace.orchestrationTrace.getD emptyOrch).modelInvocationOutput) :=
      Inv_modelHandlers n _ _ _ _ (Inv_startSpan n st _ _ _ h hnone)
    apply Inv_orchObservation
    · cases hinv : (t.trace.orchestrationTrace.getD emptyOrch).invocationInput with
      | none => exact hmh
      | some inv => exact Inv_toolInputStep n _ _ inv hmh
    · cases hinv : (t.trace.orchestrationTrace.getD emptyOrch).invocationInput with
      | none =>
        intro s hs
        rw [modelHandlers_activeSpans] at hs
        rw [hself]
        simp only [Option.getD_some]
        exact Option.some.inj (hs.symm.trans hself)
      | some inv =>
        intro s hs
        have hs2 : regLookup (toolInputStep (modelHandlers (startSpan st (orchKey tri t)
            "agent_orchestration" (orchCreateAttrs aid
              ((t.trace.orchestrationTrace.getD emptyOrch).traceId.getD "")))
            ((regLookup (startSpan st (orchKey tri t) "agent_orchestration"
              (orchCreateAttrs aid
                ((t.trace.orchestrationTrace.getD emptyOrch).traceId.getD ""))).activeSpans
                (orchKey tri t)).getD 0)
            (t.trace.orchestrationTrace.getD emptyOrch).modelInvocationInput
            (t.trace.orchestrationTrace.getD emptyOrch).modelInvocationOutput)
            (orchKey tri t) inv).activeSpans (orchKey tri t) = some s := hs
        rcases toolInputStep_cases (modelHandlers (startSpan st (orchKey tri t)
            "agent_orchestration" (orchCreateAttrs aid
              ((t.trace.orchestrationTrace.getD emptyOrch).traceId.getD "")))
            ((regLookup (startSpan st (orchKey tri t) "agent_orchestration"
              (orchCreateAttrs aid
                ((t.trace.orchestrationTrace.getD emptyOrch).traceId.getD ""))).activeSpans
                (orchKey tri t)).getD 0)
            (t.trace.orchestrationTrace.getD emptyOrch).modelInvocationInput
            (t.trace.orchestrationTrace.getD emptyOrch).modelInvocationOutput)
            (orchKey tri t) inv with hc | ⟨nm, ag, hc⟩
        · rw [hc, modelHandlers_activeSpans] at hs2
          rw [hself]
          simp only [Option.getD_some]
          exact Option.some.inj (hs2.symm.trans hself)
        · rw [hc] at hs2
          have hpres : regLookup (startSpan (modelHandlers (startSpan st (orchKey tri t)
              "agent_orchestration" (orchCreateAttrs aid
                ((t.trace.orchestrationTrace.getD emptyOrch).traceId.getD "")))
              ((regLookup (startSpan st (orchKey tri t) "agent_orchestration"
                (orchCreateAttrs aid
                  ((t.trace.orchestrationTrace.getD emptyOrch).traceId.getD ""))).activeSpans
                  (orchKey tri t)).getD 0)
              (t.trace.orchestrationTrace.getD emptyOrch).modelInvocationInput
              (t.trace.orchestrationTrace.getD emptyOrch).modelInvocationOutput)
              (orchKey tri t ++ "_tool_" ++ nm) ("tool_execution_" ++ nm)
              (toolCreateAttrs nm ag)).activeSpans (orchKey tri t) = some st.nextSid := by
            apply regLookup_append_of_some
            rw [modelHandlers_activeSpans]
            exact hself
          rw [hself]
          simp only [Option.getD_some]
          exact Option.some.inj (hs2.symm.trans hpres)

theorem Inv_process_trace (n : Nat) (st : TraceState) (e : TraceEvent) (h : Inv n st) :
    Inv n (process_trace st e) := by
  simp only [process_trace]
  by_cases h1 : e.trace.routingClassifierTrace.isSome = true <;>
    by_cases h2 : e.trace.orchestrationTrace.isSome = true
  · rw [if_pos h1, if_pos h2]
    exact Inv_orchestration_trace n _ _ _ e (Inv_routing_trace n st _ _ e h)
  · rw [if_pos h1, if_neg h2]
    exact Inv_routing_trace n st _ _ e h
  · rw [if_neg h1, if_pos h2]
    exact Inv_orchestration_trace n st _ _ e h
  · rw [if_neg h1, if_neg h2]
    exact h

theorem Inv_stream_fold (n : Nat) (evs : List StreamEvent) :
    ∀ (acc : String) (st : TraceState), Inv n st →
      Inv n ((evs.foldl stream_step (acc, st)).2) := by
  induction evs with
  | nil => intro acc st h; exact h
  | cons e rest ih =>
    intro acc st h
    rw [List.foldl_cons]
    have hstep : Inv n ((stream_step (acc, st) e).2) := by
      unfold stream_step
      cases hc : e.chunk <;> cases ht : e.trace <;> simp only [hc, ht] <;>
        first
        | exact h
        | exact Inv_process_trace n st _ h
    exact ih (stream_step (acc, st) e).1 (stream_step (acc, st) e).2 hstep

theorem Inv_cleared (st : TraceState) (n : Nat) (hn : n ≤ st.nextSid) :
    Inv n { st with activeSpans := [] } :=
  ⟨⟨by simp, by simp, by simp, by simp⟩, by simp, hn⟩

theorem Inv_observe (st : TraceState) (root : Nat) (resp : Response) :
    Inv st.nextSid (observe_response st root resp).2 := by
  have h0 : Inv st.nextSid { st with activeSpans := [] } := Inv_cleared st _ le_rfl
  unfold observe_response
  cases hc : resp.completion with
  | none =>
    simp only [hc]
    exact Inv_setAttrs _ _ _ root h0
  | some evs =>
    simp only [hc]
    exact Inv_setAttrs _ _ _ root (Inv_stream_fold _ evs "" _ h0)

/-- C5: the registry well-formedness — in particular that every key
present maps to an Open span (closing always deletes the key in the
same step) — is preserved by every processed trace event; and after a
full `observe_response` invocation the registry is well formed and
every entry in it was allocated during that invocation (its handle is
at least the starting `nextSid`), so no span left Open by invocation 1
can appear in invocation 2's span set (the registry is cleared when the
invocation starts). -/
theorem c5_registry_open_invariant :
    (∀ (n : Nat) (st : TraceState) (e : TraceEvent), Inv n st → Inv n (process_trace st e)) ∧
    (∀ (st : TraceState) (root : Nat) (resp : Response),
        WF (observe_response st root resp).2 ∧
        ∀ e ∈ (observe_response st root resp).2.activeSpans, st.nextSid ≤ e.2) :=
  ⟨Inv_process_trace, fun st root resp =>
    ⟨(Inv_observe st root resp).1, (Inv_observe st root resp).2.1⟩⟩

/-- Closed instance of `c5_registry_open_invariant` at concrete
inputs. -/
theorem c5_witness :
    Inv 0 (process_trace initState c1FinalEvent) ∧
    WF (observe_response rootedState 0 ⟨none⟩).2 :=
  ⟨c5_registry_open_invariant.1 0 initState c1FinalEvent
      ⟨⟨by simp [initState], by simp [initState], by simp [initState], by simp [initState]⟩,
       by simp [initState], Nat.zero_le _⟩,
   (c5_registry_open_invariant.2 rootedState 0 ⟨none⟩).1⟩

end BedrockObs
